import Mathlib

/-!
# neutron-query-relayer: TX query engine, dispatcher and unbounded queue

A shallow embedding of `internal/relay/relayer.go` and
`internal/txprocessor/txprocessor.go`.

* Go `error` values are a small tree type that keeps the `%w` wrapping chain.
* The collaborators behind interfaces (storage faults, target chain, consensus
  manager, submitter, JSON decoder, clock) are fields of `Env`.  Every field that
  stands for a call is indexed by the number of calls made before it (the length
  of the trace), so that two calls with the same arguments may answer differently.
* `World` is the durable storage plus the trace of calls made so far.
* The text-to-clause part of `json.Unmarshal` is a field of `Env`; what it does to a
  number (the nearest `float64`) is `Float64.ofNat` and `jsonDecode`.
* `uint64` values are natural numbers; the one place where the source converts a
  signed value reduces it modulo `2^64`.
* Logging, the queue-length gauge of `Run` and context cancellation inside a pass
  are not modelled; the proof and request counters are trace events.
-/

set_option autoImplicit false

namespace relay

/-! ## Errors -/

/-- Go `error` values: a leaf error, the tagged `ErrSubmitTxProofCritical`, or the
result of `fmt.Errorf("<pfx>%w", inner)`. -/
inductive GoError where
  | plain (msg : String)
  | critical (details : String)
  | wrapped (pfx : String) (inner : GoError)
deriving DecidableEq, Repr

/-- The `Error()` string. -/
def GoError.Error : GoError → String
  | .plain msg => msg
  | .critical details => details
  | .wrapped pfx inner => pfx ++ inner.Error

/-- Go `errors.Unwrap`: one step down the chain, `nil` for `nil` and for leaves. -/
def errorsUnwrap : Option GoError → Option GoError
  | some (.wrapped _ inner) => some inner
  | _ => none

/-- Walks the `%w` chain of an error looking for an `ErrSubmitTxProofCritical`. -/
def GoError.asCritical : GoError → Bool
  | .plain _ => false
  | .critical _ => true
  | .wrapped _ inner => inner.asCritical

/-- Go `errors.As(err, &critErr)` with `critErr` of type `ErrSubmitTxProofCritical`. -/
def errorsAsCritical : Option GoError → Bool
  | none => false
  | some e => e.asCritical

/-! ## Filter values -/

/-- The size of the `uint64` range. -/
def uint64Size : Nat := 2 ^ 64

/-- A Go `float64` by its IEEE-754 binary64 fields: sign bit, biased exponent
(below 2048) and fraction (below `2^52`). -/
structure Float64 where
  sign : Bool
  exponent : Nat
  fraction : Nat
deriving DecidableEq, Repr

/-- The magnitude of a finite `float64` with the fraction discarded; `none` for
infinities and NaN. -/
def Float64.truncate (f : Float64) : Option Nat :=
  if 2047 ≤ f.exponent then none
  else if f.exponent = 0 then some 0
  else if 1075 ≤ f.exponent then some ((2 ^ 52 + f.fraction) * 2 ^ (f.exponent - 1075))
  else some ((2 ^ 52 + f.fraction) / 2 ^ (1075 - f.exponent))

/-- Go conversion `uint64(r)` of a `float64`: truncation toward zero when the
truncated value is in range; otherwise the result is implementation-dependent and
is read from `ovf`. -/
def Float64.toUint64 (ovf : Float64 → Nat) (f : Float64) : Nat :=
  match f.truncate with
  | none => ovf f % uint64Size
  | some n =>
    if n = 0 then 0
    else if f.sign = false ∧ n < uint64Size then n
    else ovf f % uint64Size

/-- The natural number a `float64` holds exactly, when it holds one. -/
def Float64.exactNat (f : Float64) : Option Nat :=
  if 2047 ≤ f.exponent then none
  else if f.exponent = 0 then (if f.fraction = 0 then some 0 else none)
  else if f.sign then none
  else if 1075 ≤ f.exponent then some ((2 ^ 52 + f.fraction) * 2 ^ (f.exponent - 1075))
  else if (2 ^ 52 + f.fraction) % 2 ^ (1075 - f.exponent) = 0 then
    some ((2 ^ 52 + f.fraction) / 2 ^ (1075 - f.exponent))
  else none

/-- The number of binary digits of a natural number, by halving at most `fuel` times. -/
def Float64.bitLengthAux : Nat → Nat → Nat
  | 0, _ => 0
  | fuel + 1, n => if n = 0 then 0 else Float64.bitLengthAux fuel (n / 2) + 1

/-- The number of binary digits of a natural number. -/
def Float64.bitLength (n : Nat) : Nat := Float64.bitLengthAux n n

/-- The `float64` that `encoding/json` (through `strconv.ParseFloat`) yields for a
JSON number written as the unsigned integer `n`: the nearest `float64`, a tie
going to the even significand. -/
def Float64.ofNat (n : Nat) : Float64 :=
  if n = 0 then { sign := false, exponent := 0, fraction := 0 }
  else
    let len := Float64.bitLength n
    if len ≤ 53 then
      { sign := false, exponent := 1022 + len, fraction := n * 2 ^ (53 - len) - 2 ^ 52 }
    else
      let shift := len - 53
      let q := n / 2 ^ shift
      let r := n % 2 ^ shift
      let half := 2 ^ (shift - 1)
      let rounded := if r > half ∨ (r = half ∧ q % 2 = 1) then q + 1 else q
      if rounded = 2 ^ 53 then
        (if 2047 ≤ 1023 + len then { sign := false, exponent := 2047, fraction := 0 }
          else { sign := false, exponent := 1023 + len, fraction := 0 })
      else
        (if 2047 ≤ 1022 + len then { sign := false, exponent := 2047, fraction := 0 }
          else { sign := false, exponent := 1022 + len, fraction := rounded - 2 ^ 52 })

/-- The dynamic type of `TransactionsFilterItem.Value` (a Go `interface{}`): what
`encoding/json` produces, plus the `uint64` that `buildTxQuery` appends. -/
inductive FilterValue where
  | str (s : String)
  | float64 (f : Float64)
  | uint64 (n : Nat)
  | bool (b : Bool)
  | null
  | array (raw : String)
  | object (raw : String)
deriving DecidableEq, Repr

/-- The `neutrontypes.TransactionsFilterItem` record. -/
structure TransactionsFilterItem where
  Field : String
  Op : String
  Value : FilterValue
deriving DecidableEq, Repr

/-- Go `strings.ToLower`, on the ASCII range. -/
def stringsToLower (s : String) : String := ⟨s.data.map Char.toLower⟩

/-- The filter field of the height clause. -/
def TxHeight : String := "tx.height"

/-! ## Messages, transactions, blocks -/

/-- A storage path and key of a KV query. -/
structure KVKey where
  Path : String
  Key : List Nat
deriving DecidableEq, Repr

/-- The `neutrontypes.RegisteredQuery` task. -/
structure RegisteredQuery where
  Id : Nat
  QueryType : String
  Keys : List KVKey
  TransactionsFilter : String
deriving DecidableEq, Repr

/-- The value of `neutrontypes.InterchainQueryTypeKV`. -/
def InterchainQueryTypeKV : String := "kv"

/-- The value of `neutrontypes.InterchainQueryTypeTX`. -/
def InterchainQueryTypeTX : String := "tx"

/-- The `MessageKV` record. -/
structure MessageKV where
  QueryId : Nat
  KVKeys : List KVKey
deriving DecidableEq, Repr

/-- The `MessageTX` record. -/
structure MessageTX where
  QueryId : Nat
  TransactionsFilter : String
deriving DecidableEq, Repr

/-- The `neutrontypes.TxValue` record: transaction bytes and the proofs that come with them. -/
structure TxValue where
  Data : List Nat
  Proof : List Nat
deriving DecidableEq, Repr

/-- The `relay.Transaction` record: a search match. -/
structure Transaction where
  Height : Nat
  Tx : TxValue
deriving DecidableEq, Repr

/-- A consensus header of the target chain as returned by the consensus manager. -/
structure Header where
  raw : String
deriving DecidableEq, Repr

/-- A header packed into a protobuf `Any`. -/
structure PackedAny where
  raw : String
deriving DecidableEq, Repr

/-- The `neutrontypes.Block` record. -/
structure Block where
  Header : PackedAny
  NextBlockHeader : PackedAny
  Tx : TxValue
deriving DecidableEq, Repr

/-- The status tags of a submitted transaction. -/
inductive SubmittedTxStatus where
  | Submitted
  | SubmittedAndVerified
  | ErrorOnSubmit
  | ErrorOnCommit
deriving DecidableEq, Repr

/-- The `relay.SubmittedTxInfo` record. -/
structure SubmittedTxInfo where
  Status : SubmittedTxStatus
  Message : String
deriving DecidableEq, Repr

/-- The `relay.PendingSubmittedTxInfo` record, the element of the unbounded queue. -/
structure PendingSubmittedTxInfo where
  QueryID : Nat
  SubmittedTxHash : String
  NeutronHash : String
  SubmitTime : Nat
deriving DecidableEq, Repr

/-! ## Environment, trace and storage -/

/-- The four storage calls the relayer and the TX processor make. -/
inductive StorageCall where
  | GetLastQueryHeight (queryID : Nat)
  | SetLastQueryHeight (queryID : Nat) (height : Nat)
  | TxExists (queryID : Nat) (hash : String)
  | SetTxStatus (queryID : Nat) (hash : String) (neutronHash : String) (info : SubmittedTxInfo)
deriving DecidableEq, Repr

/-- One entry of the trace: a call that left the relayer.  `SetLastQueryHeight`
also records the value that was stored for the query when the call was made. -/
inductive Event where
  | GetLastQueryHeight (queryID : Nat)
  | SetLastQueryHeight (queryID : Nat) (height : Nat) (stored : Option Nat)
  | TxExists (queryID : Nat) (hash : String)
  | SetTxStatus (queryID : Nat) (hash : String) (neutronHash : String) (info : SubmittedTxInfo)
  | QueryLatestHeight
  | SearchTransactions (query : String)
  | GetHeaderWithBestTrustedHeight (height : Nat)
  | SubmitTxProof (queryID : Nat) (block : Block)
  | Enqueue (item : PendingSubmittedTxInfo)
  | KVProcessAndSubmit (m : MessageKV)
  | AddFailedProof (queryType : String)
  | AddSuccessProof (queryType : String)
  | AddFailedRequest (queryType : String)
  | AddSuccessRequest (queryType : String)
deriving DecidableEq, Repr

/-- Everything outside the two source files.  A `Nat` first argument is the
number of calls made so far. -/
structure Env where
  InitialTxSearchOffset : Nat
  storageErr : StorageCall → Nat → Option GoError
  QueryLatestHeight : Nat → Except GoError Int
  Unmarshal : String → Except GoError (List TransactionsFilterItem)
  float64Overflow : Float64 → Nat
  SearchTransactions : Nat → String → List Transaction × Option GoError
  Hash : List Nat → String
  GetHeaderWithBestTrustedHeight : Nat → Nat → Except GoError Header
  PackHeader : Header → Except GoError PackedAny
  SubmitTxProof : Nat → Nat → Block → String × Option GoError
  Now : Nat → Nat
  KVProcessAndSubmit : Nat → MessageKV → Option GoError

/-- The durable storage and the trace of calls. -/
structure World where
  heights : Nat → Option Nat
  statuses : Nat → String → Option (String × SubmittedTxInfo)
  trace : List Event

/-- Appends a call to the trace. -/
def World.emit (w : World) (e : Event) : World :=
  { w with trace := w.trace ++ [e] }

end relay

namespace Storage

open relay

/-- Modelled from the spec: the body of `Storage.GetLastQueryHeight`, which is not
in the source files; it returns the stored watermark and whether there is one. -/
def GetLastQueryHeight (env : Env) (queryID : Nat) (w : World) :
    Except GoError (Nat × Bool) × World :=
  let w1 := w.emit (.GetLastQueryHeight queryID)
  match env.storageErr (.GetLastQueryHeight queryID) w.trace.length with
  | some err => (.error err, w1)
  | none =>
    match w.heights queryID with
    | some height => (.ok (height, true), w1)
    | none => (.ok (0, false), w1)

/-- Modelled from the spec: the body of `Storage.SetLastQueryHeight`, which is not
in the source files; a call that succeeds replaces the watermark of the query, a
call that fails leaves the storage as it was. -/
def SetLastQueryHeight (env : Env) (queryID : Nat) (height : Nat) (w : World) :
    Option GoError × World :=
  let w1 := w.emit (.SetLastQueryHeight queryID height (w.heights queryID))
  match env.storageErr (.SetLastQueryHeight queryID height) w.trace.length with
  | some err => (some err, w1)
  | none =>
    (none, { w1 with heights := fun q => if q = queryID then some height else w1.heights q })

/-- Modelled from the spec: the body of `Storage.TxExists`, which is not in the
source files; true when a status is stored under the query and hash. -/
def TxExists (env : Env) (queryID : Nat) (hash : String) (w : World) :
    Except GoError Bool × World :=
  let w1 := w.emit (.TxExists queryID hash)
  match env.storageErr (.TxExists queryID hash) w.trace.length with
  | some err => (.error err, w1)
  | none => (.ok (w.statuses queryID hash).isSome, w1)

/-- Modelled from the spec: the body of `Storage.SetTxStatus`, which is not in the
source files; an upsert keyed by query and source hash, a call that fails leaves
the storage as it was. -/
def SetTxStatus (env : Env) (queryID : Nat) (hash : String) (neutronHash : String)
    (info : SubmittedTxInfo) (w : World) : Option GoError × World :=
  let w1 := w.emit (.SetTxStatus queryID hash neutronHash info)
  match env.storageErr (.SetTxStatus queryID hash neutronHash info) w.trace.length with
  | some err => (some err, w1)
  | none =>
    (none, { w1 with statuses := fun q h =>
      if q = queryID ∧ h = hash then some (neutronHash, info) else w1.statuses q h })

end Storage

namespace txprocessor

open relay

/-- The source function `TXProcessor.prepareHeaders`. -/
def prepareHeaders (env : Env) (txStruct : Transaction) (w : World) :
    Except GoError (PackedAny × PackedAny) × World :=
  let w1 := w.emit (.GetHeaderWithBestTrustedHeight txStruct.Height)
  match env.GetHeaderWithBestTrustedHeight w.trace.length txStruct.Height with
  | .error err => (.error (.wrapped "failed to get header for src chain: " err), w1)
  | .ok header =>
    match env.PackHeader header with
    | .error err => (.error (.wrapped "failed to pack header: " err), w1)
    | .ok packedHeader =>
      let next := (txStruct.Height + 1) % uint64Size
      let w2 := w1.emit (.GetHeaderWithBestTrustedHeight next)
      match env.GetHeaderWithBestTrustedHeight w1.trace.length next with
      | .error err => (.error (.wrapped "failed to get next header for src chain: " err), w2)
      | .ok nextHeader =>
        match env.PackHeader nextHeader with
        | .error err => (.error (.wrapped "failed to pack next header: " err), w2)
        | .ok packedNextHeader => (.ok (packedHeader, packedNextHeader), w2)

/-- The source function `TXProcessor.txToBlock`. -/
def txToBlock (env : Env) (tx : Transaction) (w : World) : Except GoError Block × World :=
  match prepareHeaders env tx w with
  | (.error err, w1) => (.error (.wrapped "failed to prepare headers: " err), w1)
  | (.ok (packedHeader, packedNextHeader), w1) =>
    (.ok { Header := packedHeader, NextBlockHeader := packedNextHeader, Tx := tx.Tx }, w1)

/-- The source function `TXProcessor.submitTxWithProofs`. -/
def submitTxWithProofs (env : Env) (queryID : Nat) (block : Block) (w : World) :
    Option GoError × World :=
  let hash := env.Hash block.Tx.Data
  let w1 := w.emit (.SubmitTxProof queryID block)
  match env.SubmitTxProof w.trace.length queryID block with
  | (neutronTxHash, some err) =>
    let w2 := w1.emit (.AddFailedProof InterchainQueryTypeTX)
    match Storage.SetTxStatus env queryID hash neutronTxHash
        { Status := .ErrorOnSubmit, Message := err.Error } w2 with
    | (some errSetStatus, w3) => (some (.wrapped "failed to store tx: " errSetStatus), w3)
    | (none, w3) =>
      (some (.wrapped ("could not submit proof for " ++ InterchainQueryTypeTX ++
        " with query_id=" ++ toString queryID ++ ": ") err), w3)
  | (neutronTxHash, none) =>
    let w2 := w1.emit (.AddSuccessProof InterchainQueryTypeTX)
    match Storage.SetTxStatus env queryID hash neutronTxHash
        { Status := .Submitted, Message := "" } w2 with
    | (some err, w3) => (some (.wrapped "failed to store tx: " err), w3)
    | (none, w3) =>
      let item : PendingSubmittedTxInfo :=
        ⟨queryID, hash, neutronTxHash, env.Now w3.trace.length⟩
      (none, w3.emit (.Enqueue item))

/-- The source function `TXProcessor.ProcessAndSubmit`. -/
def ProcessAndSubmit (env : Env) (queryID : Nat) (tx : Transaction) (w : World) :
    Option GoError × World :=
  let hash := env.Hash tx.Tx.Data
  match Storage.TxExists env queryID hash w with
  | (.error err, w1) => (some (.wrapped "failed to check tx existence: " err), w1)
  | (.ok txExists, w1) =>
    if txExists then (none, w1)
    else
      match txToBlock env tx w1 with
      | (.error err, w2) => (some (.wrapped "failed to prepsre block: " err), w2)
      | (.ok block, w2) =>
        match submitTxWithProofs env queryID block w2 with
        | (some err, w3) => (some (.wrapped "failed to submit block: " err), w3)
        | (none, w3) => (none, w3)

/-- The control points of the goroutine started by `makeQueue`: the head of the
loop and the `select`. -/
inductive PumpPC where
  | top
  | select
deriving DecidableEq, Repr

/-- The state of the goroutine started by `makeQueue`. -/
structure PumpState (α : Type) where
  pc : PumpPC
  queue : List α

/-- What can happen to the pump: a producer hands `v` over on `enq`, a consumer
takes an item from `deq`, or the pump moves on its own. -/
inductive PumpEvent (α : Type) where
  | enq (v : α)
  | deq
  | tau

/-- The source function `makeQueue`: the state in which the goroutine starts. -/
def makeQueue {α : Type} : PumpState α := { pc := .top, queue := [] }

/-- One transition of the goroutine of `makeQueue`, with the item it delivers on
`deq` if it delivers one; `none` when the event cannot happen in this state. -/
def makeQueue.step {α : Type} (s : PumpState α) : PumpEvent α → Option (PumpState α × Option α)
  | .enq v =>
    match s.pc with
    | .top => if s.queue.length = 0 then some ({ pc := .select, queue := s.queue ++ [v] }, none)
              else none
    | .select =>
      match s.queue with
      | [] => none
      | _ :: _ => some ({ pc := .top, queue := s.queue ++ [v] }, none)
  | .deq =>
    match s.pc with
    | .top => none
    | .select =>
      match s.queue with
      | [] => none
      | x :: rest => some ({ pc := .top, queue := rest }, some x)
  | .tau =>
    match s.pc with
    | .top => if s.queue.length = 0 then none else some ({ s with pc := .select }, none)
    | .select => none

/-- Runs the pump over a sequence of events, collecting what it delivers. -/
def makeQueue.run {α : Type} : PumpState α → List (PumpEvent α) → Option (PumpState α × List α)
  | s, [] => some (s, [])
  | s, ev :: evs =>
    match makeQueue.step s ev with
    | none => none
    | some (s1, out) =>
      match makeQueue.run s1 evs with
      | none => none
      | some (s2, outs) => some (s2, out.toList ++ outs)

/-- The items accepted on `enq`, in order. -/
def makeQueue.accepted {α : Type} : List (PumpEvent α) → List α
  | [] => []
  | .enq v :: evs => v :: makeQueue.accepted evs
  | _ :: evs => makeQueue.accepted evs

end txprocessor

namespace relay

/-- The source function `getOpSign`. -/
def getOpSign (op : String) : Except GoError String :=
  let lower := stringsToLower op
  if lower = "eq" then .ok "="
  else if lower = "gt" then .ok ">"
  else if lower = "gte" then .ok ">="
  else if lower = "lt" then .ok "<"
  else if lower = "lte" then .ok "<="
  else .error (.plain ("unsupported operator " ++ op))

/-- The loop of `queryFromTxFilter` over the rows, with the list built so far. -/
def queryFromTxFilter.loop (ovf : Float64 → Nat) :
    List TransactionsFilterItem → List String → Except GoError (List String)
  | [], queryParamsList => .ok queryParamsList
  | row :: rest, queryParamsList =>
    match getOpSign row.Op with
    | .error err => .error err
    | .ok sign =>
      match row.Value with
      | .str r =>
        queryFromTxFilter.loop ovf rest (queryParamsList ++ [row.Field ++ sign ++ "'" ++ r ++ "'"])
      | .float64 r =>
        queryFromTxFilter.loop ovf rest
          (queryParamsList ++ [row.Field ++ sign ++ toString (r.toUint64 ovf)])
      | .uint64 r =>
        queryFromTxFilter.loop ovf rest (queryParamsList ++ [row.Field ++ sign ++ toString r])
      | _ => queryFromTxFilter.loop ovf rest queryParamsList

/-- The source function `queryFromTxFilter`. -/
def queryFromTxFilter (ovf : Float64 → Nat) (params : List TransactionsFilterItem) :
    Except GoError String :=
  match queryFromTxFilter.loop ovf params [] with
  | .error err => .error err
  | .ok queryParamsList => .ok (String.intercalate " AND " queryParamsList)

/-- The source function `Relayer.getLastQueryHeight`. -/
def getLastQueryHeight (env : Env) (queryID : Nat) (w : World) : Except GoError Nat × World :=
  match Storage.GetLastQueryHeight env queryID w with
  | (.error err, w1) =>
    (.error (.wrapped "could not get last query height from storage: " err), w1)
  | (.ok (height, found), w1) =>
    if found then (.ok height, w1)
    else
      if env.InitialTxSearchOffset ≠ 0 then
        let w2 := w1.emit .QueryLatestHeight
        match env.QueryLatestHeight w1.trace.length with
        | .error err => (.error (.wrapped "could not get latest target chain height: " err), w2)
        | .ok latestHeight =>
          let latest := (latestHeight % (uint64Size : Int)).toNat
          let height := if latest > env.InitialTxSearchOffset
            then latest - env.InitialTxSearchOffset else 0
          match Storage.SetLastQueryHeight env queryID height w2 with
          | (some err, w3) =>
            (.error (.wrapped "failed to set a 0 last height for an uninitialised query: " err), w3)
          | (none, w3) => (.ok height, w3)
      else
        match Storage.SetLastQueryHeight env queryID 0 w1 with
        | (some err, w3) =>
          (.error (.wrapped "failed to set a 0 last height for an uninitialised query: " err), w3)
        | (none, w3) => (.ok 0, w3)

/-- The source function `Relayer.buildTxQuery`. -/
def buildTxQuery (env : Env) (m : MessageTX) (w : World) : Except GoError String × World :=
  match getLastQueryHeight env m.QueryId w with
  | (.error err, w1) => (.error (.wrapped "could not get last query height: " err), w1)
  | (.ok queryLastHeight, w1) =>
    match env.Unmarshal m.TransactionsFilter with
    | .error err => (.error (.wrapped "could not unmarshal transactions filter: " err), w1)
    | .ok params =>
      match queryFromTxFilter env.float64Overflow
          (params ++ [{ Field := TxHeight, Op := "gt", Value := .uint64 queryLastHeight }]) with
      | .error err => (.error (.wrapped "failed to process tx query params: " err), w1)
      | .ok queryString => (.ok queryString, w1)

/-- The second half of an iteration of the loop of `processMessageTX`: the hash, the
`TxExists` check and the call of the TX processor. -/
def processMessageTX.dedup (env : Env) (queryID : Nat) (tx : Transaction) (w : World) :
    Except GoError Nat × World :=
  let hash := env.Hash tx.Tx.Data
  match Storage.TxExists env queryID hash w with
  | (.error err, w2) => (.error (.wrapped "failed to check tx existence: " err), w2)
  | (.ok txExists, w2) =>
    if txExists then (.ok tx.Height, w2)
    else
      match txprocessor.ProcessAndSubmit env queryID tx w2 with
      | (some err, w3) => (.error (.wrapped "failed to process txs: " err), w3)
      | (none, w3) => (.ok tx.Height, w3)

/-- One iteration of the `for tx := range txs` loop of `processMessageTX`: the
watermark write for the height that is complete, then the check and submission.
The result is the new `lastProcessedHeight`, or the error the function returns with. -/
def processMessageTX.body (env : Env) (queryID : Nat) (tx : Transaction)
    (lastProcessedHeight : Nat) (w : World) : Except GoError Nat × World :=
  let saved : Option GoError × World :=
    if tx.Height > lastProcessedHeight ∧ lastProcessedHeight > 0 then
      Storage.SetLastQueryHeight env queryID lastProcessedHeight w
    else (none, w)
  match saved with
  | (some err, w1) => (.error (.wrapped "failed to save last height of query: " err), w1)
  | (none, w1) => processMessageTX.dedup env queryID tx w1

/-- The `for tx := range txs` loop of `processMessageTX`. -/
def processMessageTX.loop (env : Env) (queryID : Nat) :
    List Transaction → Nat → World → Except GoError Nat × World
  | [], lastProcessedHeight, w => (.ok lastProcessedHeight, w)
  | tx :: rest, lastProcessedHeight, w =>
    match processMessageTX.body env queryID tx lastProcessedHeight w with
    | (.error err, w1) => (.error err, w1)
    | (.ok height, w1) => processMessageTX.loop env queryID rest height w1

/-- The part of `processMessageTX` that follows `buildTxQuery`: the search, the
loop over the stream and the final watermark write. -/
def processMessageTX.search (env : Env) (queryID : Nat) (queryString : String) (w : World) :
    Option GoError × World :=
  let stream := env.SearchTransactions w.trace.length queryString
  let w1 := w.emit (.SearchTransactions queryString)
  match processMessageTX.loop env queryID stream.1 0 w1 with
  | (.error err, w2) => (some err, w2)
  | (.ok lastProcessedHeight, w2) =>
    match stream.2 with
    | some stoppedWithErr => (some (.wrapped "failed to query txs: " stoppedWithErr), w2)
    | none =>
      if lastProcessedHeight > 0 then
        match Storage.SetLastQueryHeight env queryID lastProcessedHeight w2 with
        | (some err, w3) => (some (.wrapped "failed to save last height of query: " err), w3)
        | (none, w3) => (none, w3)
      else (none, w2)

/-- The source function `Relayer.processMessageTX`. -/
def processMessageTX (env : Env) (m : MessageTX) (w : World) : Option GoError × World :=
  match buildTxQuery env m w with
  | (.error err, w1) => (some (.wrapped "failed to build tx query string: " err), w1)
  | (.ok queryString, w1) => processMessageTX.search env m.QueryId queryString w1

/-- The source function `Relayer.processMessageKV`. -/
def processMessageKV (env : Env) (m : MessageKV) (w : World) : Option GoError × World :=
  (env.KVProcessAndSubmit w.trace.length m, w.emit (.KVProcessAndSubmit m))

/-- The tail of one iteration of `Run`: the request metric for the outcome. -/
def Run.record (queryType : String) (err : Option GoError) (w : World) : World :=
  match err with
  | some _ => w.emit (.AddFailedRequest queryType)
  | none => w.emit (.AddSuccessRequest queryType)

/-- The `case query := <-queriesTasksQueue` branch of `Run`: `some r` when `Run`
returns `r`, `none` when the loop goes round again. -/
def Run.task (env : Env) (query : RegisteredQuery) (w : World) :
    Option (Option GoError) × World :=
  if query.QueryType = InterchainQueryTypeKV then
    match processMessageKV env { QueryId := query.Id, KVKeys := query.Keys } w with
    | (err, w1) => (none, Run.record query.QueryType err w1)
  else if query.QueryType = InterchainQueryTypeTX then
    match processMessageTX env
        { QueryId := query.Id, TransactionsFilter := query.TransactionsFilter } w with
    | (err, w1) =>
      if errorsAsCritical (errorsUnwrap err) then (some err, w1)
      else (none, Run.record query.QueryType err w1)
  else
    (none, Run.record query.QueryType
      (some (.plain ("unknown query type: " ++ query.QueryType))) w)

/-- What the `select` of `Run` can receive. -/
inductive RunInput where
  | task (query : RegisteredQuery)
  | ctxDone
deriving DecidableEq, Repr

/-- The source function `Relayer.Run` over the sequence of things its `select`
receives: `some r` when it has returned `r`, `none` while it waits in the `select`. -/
def Run (env : Env) : List RunInput → World → Option (Option GoError) × World
  | [], w => (none, w)
  | .ctxDone :: _, w => (some none, w)
  | .task query :: rest, w =>
    match Run.task env query w with
    | (some r, w1) => (some r, w1)
    | (none, w1) => Run env rest w1

end relay

/-! ## Relations between worlds -/

namespace relay

/-- The world after a `SetLastQueryHeight` call that succeeded. -/
def World.saved (w : World) (queryID height : Nat) : World :=
  { heights := fun q => if q = queryID then some height else w.heights q,
    statuses := w.statuses,
    trace := w.trace ++ [.SetLastQueryHeight queryID height (w.heights queryID)] }

/-- Whether a trace entry is a watermark write. -/
def Event.isHeightWrite : Event → Bool
  | .SetLastQueryHeight _ _ _ => true
  | _ => false

/-- A watermark write is monotone when it does not go below the value that was
stored when it was made. -/
def Event.monotoneWrite : Event → Prop
  | .SetLastQueryHeight _ height (some stored) => stored ≤ height
  | _ => True

/-- Whether a status is stored for the transaction under the query: what `TxExists` reads. -/
def World.hasTx (w : World) (queryID : Nat) (hash : String) : Prop :=
  (w.statuses queryID hash).isSome = true

/-- The world `w1` comes after `w` through calls that wrote no watermark and
removed no status. -/
def World.StatusStep (w w1 : World) : Prop :=
  w1.heights = w.heights ∧
    (∀ q h, w.hasTx q h → w1.hasTx q h) ∧
    ∃ evs, w1.trace = w.trace ++ evs ∧ ∀ e ∈ evs, e.isHeightWrite = false

end relay

namespace relay

/-- Every transaction of `txs` at or below the stored watermark of the query has a
status stored. -/
def World.covers (w : World) (env : Env) (queryID : Nat) (txs : List Transaction) : Prop :=
  ∀ W, w.heights queryID = some W →
    ∀ t ∈ txs, t.Height ≤ W → w.hasTx queryID (env.Hash t.Tx.Data)

/-- The height bookkeeping of the loop of `processMessageTX`, on the heights of the
stream alone: from `lastProcessedHeight` and the stored watermark, the final
`lastProcessedHeight` and the watermark the loop leaves when no iteration fails. -/
def processMessageTX.heights : List Nat → Nat → Option Nat → Nat × Option Nat
  | [], lastProcessedHeight, stored => (lastProcessedHeight, stored)
  | height :: rest, lastProcessedHeight, stored =>
    processMessageTX.heights rest height
      (if height > lastProcessedHeight ∧ lastProcessedHeight > 0 then some lastProcessedHeight
        else stored)

/-- No storage call fails and no submission fails: every header is fetched and
packed and every proof is accepted. -/
def Env.noFailure (env : Env) : Prop :=
  (∀ c n, env.storageErr c n = none) ∧
    (∀ n h, ∃ header, env.GetHeaderWithBestTrustedHeight n h = .ok header) ∧
    (∀ header, ∃ packed, env.PackHeader header = .ok packed) ∧
    (∀ n q b, (env.SubmitTxProof n q b).2 = none)

/-- The trace of `w1` is the trace of `w` followed by calls among which every
watermark write is monotone. -/
def World.monotoneSince (w w1 : World) : Prop :=
  ∃ evs, w1.trace = w.trace ++ evs ∧ ∀ e ∈ evs, e.monotoneWrite

/-- The world `w1` comes after `w` through the calls `getLastQueryHeight` makes for
the query: no status is touched, no other query is touched, nothing is written
when the query has a watermark, and the calls are the read, the latest-height
query and the write of a first watermark. -/
def World.onlyInitialised (w w1 : World) (queryID : Nat) : Prop :=
  w1.statuses = w.statuses ∧
    (∀ q, q ≠ queryID → w1.heights q = w.heights q) ∧
    (∀ W, w.heights queryID = some W → w1.heights = w.heights) ∧
    ∃ evs, w1.trace = w.trace ++ evs ∧
      ∀ e ∈ evs, e = .GetLastQueryHeight queryID ∨ e = .QueryLatestHeight ∨
        ∃ height, e = .SetLastQueryHeight queryID height none

/-- The stream is ordered by ascending height. -/
def ascending (txs : List Transaction) : Prop :=
  txs.Pairwise (fun a b => a.Height ≤ b.Height)

end relay

/-! ## The statements of the specification, in its own words -/

namespace Spec

open relay

/-- The operators the specification admits. -/
def isOp (op : String) : Prop :=
  op = "eq" ∨ op = "gt" ∨ op = "gte" ∨ op = "lt" ∨ op = "lte"

/-- The operator mapping of the specification: eq, gt, gte, lt, lte become
the signs =, >, >=, <, <=. -/
def opSign (op : String) : String :=
  if op = "eq" then "="
  else if op = "gt" then ">"
  else if op = "gte" then ">="
  else if op = "lt" then "<"
  else if op = "lte" then "<="
  else ""

/-- A value is a string or an unsigned 64-bit integer: a Go string, a Go `uint64`,
or a JSON number (a `float64`) that holds a natural number below `2^64` exactly. -/
def isStringOrUnsigned : FilterValue → Prop
  | .str _ => True
  | .uint64 _ => True
  | .float64 f => ∃ n, f.exactNat = some n ∧ n < uint64Size
  | _ => False

/-- A value as the specification renders it: strings in single quotes, numbers as
bare decimal. -/
def valueText : FilterValue → String
  | .str s => "'" ++ s ++ "'"
  | .uint64 n => toString n
  | .float64 f =>
    match f.exactNat with
    | some n => toString n
    | none => ""
  | _ => ""

/-- One clause: field, sign, value. -/
def clause (c : TransactionsFilterItem) : String :=
  c.Field ++ opSign c.Op ++ valueText c.Value

/-- The query string of the specification: the clauses in order, then the height
clause, joined by " AND ". -/
def queryString (params : List TransactionsFilterItem) (watermark : Nat) : String :=
  String.intercalate " AND " (params.map clause ++ ["tx.height>" ++ toString watermark])

/-- The height `W` is the greatest height of the stream strictly below the height
of its last transaction. -/
def lastCompleted (heights : List Nat) (W : Nat) : Prop :=
  ∃ hn, heights.getLast? = some hn ∧ W ∈ heights ∧ W < hn ∧ ∀ x ∈ heights, x < hn → x ≤ W

/-- The stream has a height strictly below the height of its last transaction. -/
def someCompleted (heights : List Nat) : Prop :=
  ∃ hn, heights.getLast? = some hn ∧ ∃ x ∈ heights, x < hn

/-- The initial watermark of a new query: 0 when the offset is 0, 0 when the offset
is greater than or equal to the latest height, the latest height minus the offset
otherwise. -/
def initialWatermark (offset : Nat) (latest : Int) : Int :=
  if offset = 0 then 0
  else if (offset : Int) ≥ latest then 0
  else latest - offset

/-- The error `c` is reached from the error `e` by one or more `%w` wrappings:
`e` wraps `c`. -/
inductive Wraps : GoError → GoError → Prop where
  | direct (pfx : String) (c : GoError) : Wraps (.wrapped pfx c) c
  | step (pfx : String) (e c : GoError) : Wraps e c → Wraps (.wrapped pfx e) c

/-- The error of a failed processing wraps a critical proof error. -/
def wrapsCritical (err : Option GoError) : Prop :=
  ∃ e details, err = some e ∧ Wraps e (.critical details)

/-- The operator is one of the five in some letter case: what `getOpSign`, which
lower-cases the operator first, accepts. -/
def isOpAnyCase (op : String) : Prop := isOp (stringsToLower op)

/-- The filter of a message is invalid: it does not decode, or it decodes to
clauses one of which has an operator that is none of the five in any letter case. -/
def invalidFilter (env : Env) (m : MessageTX) : Prop :=
  (∃ err, env.Unmarshal m.TransactionsFilter = .error err) ∨
    ∃ params, env.Unmarshal m.TransactionsFilter = .ok params ∧
      ∃ c ∈ params, ¬isOpAnyCase c.Op

/-- Fetching or packing one of the two headers of a transaction at height `h`
fails, the first fetch being call number `n`. -/
def headersFail (env : Env) (n h : Nat) : Prop :=
  (∃ err, env.GetHeaderWithBestTrustedHeight n h = .error err) ∨
    (∃ header err, env.GetHeaderWithBestTrustedHeight n h = .ok header ∧
      env.PackHeader header = .error err) ∨
    (∃ err, env.GetHeaderWithBestTrustedHeight (n + 1) (h + 1) = .error err) ∨
    (∃ next err, env.GetHeaderWithBestTrustedHeight (n + 1) (h + 1) = .ok next ∧
      env.PackHeader next = .error err)

/-- No status is stored for the transaction and the `TxExists` read answers: the
case in which `ProcessAndSubmit` goes on to build the block. -/
def txMissing (env : Env) (queryID : Nat) (tx : Transaction) (w : World) : Prop :=
  env.storageErr (.TxExists queryID (env.Hash tx.Tx.Data)) w.trace.length = none ∧
    w.statuses queryID (env.Hash tx.Tx.Data) = none

/-- A value as the filter of a message writes it in JSON: a string or an unsigned
integer. -/
inductive Scalar where
  | str (s : String)
  | uint (n : Nat)
deriving DecidableEq, Repr

/-- A clause of the filter of a message, as written in JSON. -/
structure Clause where
  field : String
  op : String
  value : Scalar
deriving DecidableEq, Repr

/-- The value is a string, or an unsigned integer that `float64` holds exactly:
an integer below `2^53`, or one below `2^64` that the nearest `float64` equals. -/
def admits : Scalar → Prop
  | .str _ => True
  | .uint n => n < 2 ^ 53 ∨ (n < uint64Size ∧ (Float64.ofNat n).exactNat = some n)

/-- A written value as the specification renders it: strings in single quotes,
numbers as bare decimal. -/
def scalarText : Scalar → String
  | .str s => "'" ++ s ++ "'"
  | .uint n => toString n

/-- One written clause: field, sign, value. -/
def clauseText (c : Clause) : String :=
  c.field ++ opSign c.op ++ scalarText c.value

/-- The query string of the specification for a written filter: the clauses in
order, then the height clause, joined by " AND ". -/
def filterString (filter : List Clause) (watermark : Nat) : String :=
  String.intercalate " AND " (filter.map clauseText ++ ["tx.height>" ++ toString watermark])

end Spec

namespace relay

/-- What `json.Unmarshal` yields for a written clause: the strings as they are, a
number as the `float64` nearest to it. -/
def jsonDecode (c : Spec.Clause) : TransactionsFilterItem :=
  { Field := c.field, Op := c.op,
    Value := match c.value with
      | .str s => .str s
      | .uint n => .float64 (Float64.ofNat n) }

end relay

/-! ## Concrete environments -/

namespace Demo

open relay

/-- The first match: height 100, bytes "a". -/
def tx100 : Transaction := ⟨100, ⟨[97], []⟩⟩

/-- The second match: height 101, bytes "b". -/
def tx101 : Transaction := ⟨101, ⟨[98], []⟩⟩

/-- An environment in which every call succeeds: offset 0, the filter of the
end-to-end scenario, two matches at heights 100 and 101. -/
def env : Env where
  InitialTxSearchOffset := 0
  storageErr := fun _ _ => none
  QueryLatestHeight := fun _ => .ok 1000
  Unmarshal := fun _ => .ok [⟨"transfer.recipient", "eq", .str "alice"⟩]
  float64Overflow := fun _ => 0
  SearchTransactions := fun _ _ => ([tx100, tx101], none)
  Hash := fun data => String.mk (data.map Char.ofNat)
  GetHeaderWithBestTrustedHeight := fun _ h => .ok ⟨toString h⟩
  PackHeader := fun h => .ok ⟨h.raw⟩
  SubmitTxProof := fun _ _ b => (String.mk (b.Tx.Data.map Char.ofNat) ++ "@neutron", none)
  Now := fun n => n
  KVProcessAndSubmit := fun _ _ => none

/-- The message of query 1. -/
def msg : MessageTX := { QueryId := 1, TransactionsFilter := "" }

/-- An empty storage. -/
def empty : World := { heights := fun _ => none, statuses := fun _ _ => none, trace := [] }

/-- A storage in which query 1 has watermark 0. -/
def fresh : World :=
  { heights := fun q => if q = 1 then some 0 else none, statuses := fun _ _ => none, trace := [] }

/-- A storage in which query 1 has watermark 0 and the first match is recorded. -/
def seen : World :=
  { heights := fun q => if q = 1 then some 0 else none,
    statuses := fun q h => if q = 1 ∧ h = "a" then some ("a@neutron", ⟨.Submitted, ""⟩) else none,
    trace := [] }

/-- As `env`, but the submitter rejects the proof of the second match with a
critical error. -/
def rejecting : Env :=
  { env with
    SubmitTxProof := fun _ _ b =>
      if b.Tx.Data = [98] then ("", some (.critical "proof rejected"))
      else (String.mk (b.Tx.Data.map Char.ofNat) ++ "@neutron", none) }

/-- As `env`, but the search stream closes with an error after the two matches. -/
def broken : Env :=
  { env with SearchTransactions := fun _ _ => ([tx100, tx101], some (.plain "rpc timeout")) }

/-- As `env`, with `InitialTxSearchOffset` 100; the latest height of the target
chain is 1000. -/
def offset100 : Env := { env with InitialTxSearchOffset := 100 }

/-- A TX task for query 1. -/
def task : RegisteredQuery :=
  { Id := 1, QueryType := "tx", Keys := [], TransactionsFilter := "" }

/-- The block of the second match. -/
def block : Block := { Header := ⟨"101"⟩, NextBlockHeader := ⟨"102"⟩, Tx := tx101.Tx }

/-- As `rejecting`, but every `SetTxStatus` call fails as well. -/
def rejectingNoStore : Env :=
  { rejecting with
    storageErr := fun c _ =>
      match c with
      | .SetTxStatus _ _ _ _ => some (.plain "disk full")
      | _ => none }

/-- The `float64` 1.5: exponent 0, fraction one half. -/
def oneAndHalf : Float64 := { sign := false, exponent := 1023, fraction := 2251799813685248 }

/-- As `env`, but the filter of the message is not valid JSON. -/
def malformed : Env :=
  { env with Unmarshal := fun _ => .error (.plain "invalid character") }

/-- As `env`, but the filter spells its operator in upper case. -/
def upper : Env :=
  { env with Unmarshal := fun _ => .ok [⟨"transfer.recipient", "EQ", .str "alice"⟩] }

/-- The filter of the end-to-end scenario as JSON text. -/
def aliceText : String :=
  "[\x7b\"field\":\"transfer.recipient\",\"op\":\"eq\",\"value\":\"alice\"\x7d]"

/-- A filter whose value is an unsigned integer just above `2^53`, as JSON text. -/
def largeText : String :=
  "[\x7b\"field\":\"transfer.amount\",\"op\":\"eq\",\"value\":9007199254740993\x7d]"

/-- As `env`, with a decoder that knows the two JSON texts above. -/
def json : Env :=
  { env with
    Unmarshal := fun text =>
      if text = aliceText then
        .ok [jsonDecode ⟨"transfer.recipient", "eq", .str "alice"⟩]
      else if text = largeText then
        .ok [jsonDecode ⟨"transfer.amount", "eq", .uint 9007199254740993⟩]
      else .error (.plain "unexpected end of JSON input") }

/-- The message of query 1 with the filter of the end-to-end scenario. -/
def aliceMsg : MessageTX := { QueryId := 1, TransactionsFilter := aliceText }

/-- The message of query 1 with the filter of the large integer. -/
def largeMsg : MessageTX := { QueryId := 1, TransactionsFilter := largeText }

end Demo

/-! ## Theorems -/

namespace relay

/-! ### Rendering of the query string -/

theorem getOpSign_of_isOp (op : String) (h : Spec.isOp op) :
    getOpSign op = .ok (Spec.opSign op) := by
  rcases h with h | h | h | h | h <;> subst h <;> rfl

theorem toUint64_pick (ovf : Float64 → Nat) (f : Float64) (n : Nat)
    (hs : f.sign = false) (hn : n < uint64Size) :
    (if n = 0 then 0 else if f.sign = false ∧ n < uint64Size then n
      else ovf f % uint64Size) = n := by
  by_cases hz : n = 0
  · simp [hz]
  · simp [hz, hs, hn]

theorem toUint64_of_exactNat (ovf : Float64 → Nat) (f : Float64) (n : Nat)
    (h : f.exactNat = some n) (hn : n < uint64Size) : f.toUint64 ovf = n := by
  unfold Float64.exactNat at h
  unfold Float64.toUint64 Float64.truncate
  by_cases h1 : 2047 ≤ f.exponent
  · rw [if_pos h1] at h
    exact absurd h (by simp)
  · rw [if_neg h1] at h ⊢
    by_cases h2 : f.exponent = 0
    · rw [if_pos h2] at h ⊢
      by_cases h3 : f.fraction = 0
      · rw [if_pos h3] at h
        have h := Option.some.inj h
        rw [← h]
        rfl
      · rw [if_neg h3] at h
        exact absurd h (by simp)
    · rw [if_neg h2] at h ⊢
      by_cases h4 : f.sign = true
      · rw [if_pos h4] at h
        exact absurd h (by simp)
      · rw [if_neg h4] at h
        have h4f : f.sign = false := by simpa using h4
        by_cases h5 : 1075 ≤ f.exponent
        · rw [if_pos h5] at h ⊢
          have h := Option.some.inj h
          rw [h]
          exact toUint64_pick ovf f n h4f hn
        · rw [if_neg h5] at h ⊢
          by_cases h6 : (2 ^ 52 + f.fraction) % 2 ^ (1075 - f.exponent) = 0
          · rw [if_pos h6] at h
            have h := Option.some.inj h
            rw [h]
            exact toUint64_pick ovf f n h4f hn
          · rw [if_neg h6] at h
            exact absurd h (by simp)

theorem loop_renders (ovf : Float64 → Nat) (params : List TransactionsFilterItem)
    (h : ∀ c ∈ params, Spec.isOp c.Op ∧ Spec.isStringOrUnsigned c.Value) (acc : List String) :
    queryFromTxFilter.loop ovf params acc = .ok (acc ++ params.map Spec.clause) := by
  induction params generalizing acc with
  | nil => simp [queryFromTxFilter.loop]
  | cons row rest ih =>
    have hrow := h row (List.mem_cons_self _ _)
    have hrest : ∀ c ∈ rest, Spec.isOp c.Op ∧ Spec.isStringOrUnsigned c.Value :=
      fun c hc => h c (List.mem_cons_of_mem _ hc)
    rw [queryFromTxFilter.loop, getOpSign_of_isOp _ hrow.1]
    rcases row with ⟨field, op, value⟩
    cases value with
    | str s => simp [ih hrest, Spec.clause, Spec.valueText, String.append_assoc]
    | uint64 n => simp [ih hrest, Spec.clause, Spec.valueText]
    | float64 f =>
      obtain ⟨n, hn, hlt⟩ := hrow.2
      simp [ih hrest, Spec.clause, Spec.valueText, hn, toUint64_of_exactNat ovf f n hn hlt]
    | bool b => exact absurd hrow.2 (by simp [Spec.isStringOrUnsigned])
    | null => exact absurd hrow.2 (by simp [Spec.isStringOrUnsigned])
    | array raw => exact absurd hrow.2 (by simp [Spec.isStringOrUnsigned])
    | object raw => exact absurd hrow.2 (by simp [Spec.isStringOrUnsigned])

theorem queryFromTxFilter_renders (ovf : Float64 → Nat) (params : List TransactionsFilterItem)
    (h : ∀ c ∈ params, Spec.isOp c.Op ∧ Spec.isStringOrUnsigned c.Value) (W : Nat) :
    queryFromTxFilter ovf (params ++ [{ Field := TxHeight, Op := "gt", Value := .uint64 W }])
      = .ok (Spec.queryString params W) := by
  have hall : ∀ c ∈ params ++ [({ Field := TxHeight, Op := "gt", Value := .uint64 W } :
      TransactionsFilterItem)], Spec.isOp c.Op ∧ Spec.isStringOrUnsigned c.Value := by
    intro c hc
    rcases List.mem_append.mp hc with hc | hc
    · exact h c hc
    · rw [List.mem_singleton] at hc
      subst hc
      exact ⟨Or.inr (Or.inl rfl), trivial⟩
  unfold queryFromTxFilter
  rw [loop_renders ovf _ hall []]
  simp only [List.nil_append, List.map_append, List.map_cons, List.map_nil]
  rfl

theorem getLastQueryHeight_found (env : Env) (queryID : Nat) (w : World) (W : Nat)
    (hW : w.heights queryID = some W)
    (hread : env.storageErr (.GetLastQueryHeight queryID) w.trace.length = none) :
    getLastQueryHeight env queryID w = (.ok W, w.emit (.GetLastQueryHeight queryID)) := by
  simp [getLastQueryHeight, Storage.GetLastQueryHeight, hW, hread]

theorem buildTxQuery_decoded (env : Env) (m : MessageTX) (w : World)
    (params : List TransactionsFilterItem) (W : Nat)
    (hW : w.heights m.QueryId = some W)
    (hread : env.storageErr (.GetLastQueryHeight m.QueryId) w.trace.length = none)
    (hdec : env.Unmarshal m.TransactionsFilter = .ok params)
    (hparams : ∀ c ∈ params, Spec.isOp c.Op ∧ Spec.isStringOrUnsigned c.Value) :
    (buildTxQuery env m w).1 = .ok (Spec.queryString params W) := by
  unfold buildTxQuery
  rw [getLastQueryHeight_found env m.QueryId w W hW hread]
  simp only [hdec, queryFromTxFilter_renders env.float64Overflow params hparams W]

theorem bitLengthAux_spec (fuel n : Nat) (h : n ≤ fuel) :
    n < 2 ^ Float64.bitLengthAux fuel n ∧
      (n ≠ 0 → 0 < Float64.bitLengthAux fuel n ∧ 2 ^ (Float64.bitLengthAux fuel n - 1) ≤ n) := by
  induction fuel generalizing n with
  | zero =>
    have : n = 0 := by omega
    subst this
    simp [Float64.bitLengthAux]
  | succ fuel ih =>
    by_cases hn : n = 0
    · subst hn
      simp [Float64.bitLengthAux]
    · rw [Float64.bitLengthAux, if_neg hn]
      obtain ⟨h1, h2⟩ := ih (n / 2) (by omega)
      constructor
      · rw [pow_succ]
        omega
      · intro _
        refine ⟨by omega, ?_⟩
        rw [Nat.add_sub_cancel]
        by_cases h0 : n / 2 = 0
        · have hk : Float64.bitLengthAux fuel (n / 2) = 0 := by
            rw [h0]
            cases fuel <;> simp [Float64.bitLengthAux]
          rw [hk]
          simp
          omega
        · obtain ⟨hp, hle⟩ := h2 h0
          have : 2 ^ Float64.bitLengthAux fuel (n / 2)
              = 2 * 2 ^ (Float64.bitLengthAux fuel (n / 2) - 1) := by
            rw [← pow_succ']
            congr 1
            omega
          rw [this]
          omega

theorem ofNat_exact (n : Nat) (h : n < 2 ^ 53) : (Float64.ofNat n).exactNat = some n := by
  by_cases hn : n = 0
  · subst hn
    rfl
  · obtain ⟨hlt, hrest⟩ := bitLengthAux_spec n n (Nat.le_refl n)
    obtain ⟨hpos, hle⟩ := hrest hn
    have hlen : Float64.bitLength n ≤ 53 := by
      by_contra hc
      have h54 : 54 ≤ Float64.bitLengthAux n n := by
        unfold Float64.bitLength at hc
        omega
      have : 2 ^ 53 ≤ 2 ^ (Float64.bitLengthAux n n - 1) :=
        Nat.pow_le_pow_right (by norm_num) (by omega)
      omega
    unfold Float64.ofNat
    rw [if_neg hn]
    dsimp only
    rw [if_pos hlen]
    unfold Float64.bitLength at hlen ⊢
    generalize Float64.bitLengthAux n n = len at *
    have hsplit : n * 2 ^ (53 - len) = 2 ^ 52 + (n * 2 ^ (53 - len) - 2 ^ 52) := by
      have h52 : 2 ^ 52 ≤ n * 2 ^ (53 - len) := by
        calc 2 ^ 52 = 2 ^ (len - 1) * 2 ^ (53 - len) := by
              rw [← pow_add]
              congr 1
              omega
          _ ≤ n * 2 ^ (53 - len) := Nat.mul_le_mul_right _ hle
      omega
    unfold Float64.exactNat
    dsimp only
    rw [if_neg (by omega), if_neg (by omega)]
    rw [if_neg (by simp)]
    rw [← hsplit]
    by_cases h53 : len = 53
    · subst h53
      rw [if_pos (by omega)]
      simp
    · rw [if_neg (by omega)]
      have he : 1075 - (1022 + len) = 53 - len := by omega
      rw [he, if_pos (Nat.mul_mod_left _ _)]
      rw [Nat.mul_div_cancel _ (by positivity)]

theorem admits_exact (n : Nat) (h : Spec.admits (.uint n)) :
    (Float64.ofNat n).exactNat = some n ∧ n < uint64Size := by
  rcases h with h | ⟨h1, h2⟩
  · refine ⟨ofNat_exact n h, ?_⟩
    have : (2 : Nat) ^ 53 < uint64Size := by norm_num [uint64Size]
    omega
  · exact ⟨h2, h1⟩

theorem jsonDecode_clause (c : Spec.Clause) (h : Spec.isOp c.op ∧ Spec.admits c.value) :
    (Spec.isOp (jsonDecode c).Op ∧ Spec.isStringOrUnsigned (jsonDecode c).Value) ∧
      Spec.clause (jsonDecode c) = Spec.clauseText c := by
  rcases c with ⟨field, op, value⟩
  cases value with
  | str s => exact ⟨⟨h.1, trivial⟩, rfl⟩
  | uint n =>
    obtain ⟨hex, hlt⟩ := admits_exact n h.2
    refine ⟨⟨h.1, n, hex, hlt⟩, ?_⟩
    simp only [Spec.clause, Spec.clauseText, jsonDecode, Spec.valueText, Spec.scalarText, hex]

/-- C1, as the code has it: for a filter whose clauses all carry one of the five
operators and a string value or an unsigned-integer value that `float64` holds
exactly, decoded as `encoding/json` decodes it, and a stored watermark `W`,
`buildTxQuery` returns the clauses in their order, each as field, sign and value
(strings in single quotes, numbers in decimal), joined by " AND ", with
`tx.height>W` last. -/
theorem buildTxQuery_renders_exact (env : Env) (m : MessageTX) (w : World)
    (filter : List Spec.Clause) (W : Nat)
    (hW : w.heights m.QueryId = some W)
    (hread : env.storageErr (.GetLastQueryHeight m.QueryId) w.trace.length = none)
    (hdec : env.Unmarshal m.TransactionsFilter = .ok (filter.map jsonDecode))
    (hfilter : ∀ c ∈ filter, Spec.isOp c.op ∧ Spec.admits c.value) :
    (buildTxQuery env m w).1 = .ok (Spec.filterString filter W) := by
  have hparams : ∀ c ∈ filter.map jsonDecode,
      Spec.isOp c.Op ∧ Spec.isStringOrUnsigned c.Value := by
    intro c hc
    obtain ⟨c0, hc0, rfl⟩ := List.mem_map.mp hc
    exact (jsonDecode_clause c0 (hfilter c0 hc0)).1
  have htext : (filter.map jsonDecode).map Spec.clause = filter.map Spec.clauseText := by
    rw [List.map_map]
    exact List.map_congr_left (fun c hc => (jsonDecode_clause c (hfilter c hc)).2)
  rw [buildTxQuery_decoded env m w (filter.map jsonDecode) W hW hread hdec hparams]
  unfold Spec.queryString Spec.filterString
  rw [htext]

/-- Witness of C1: the filter `transfer.recipient eq "alice"`, given as JSON text,
with watermark 0. -/
theorem buildTxQuery_renders_exact_witness :
    (buildTxQuery Demo.json Demo.aliceMsg Demo.fresh).1
      = .ok "transfer.recipient='alice' AND tx.height>0" :=
  buildTxQuery_renders_exact Demo.json Demo.aliceMsg Demo.fresh
    [⟨"transfer.recipient", "eq", .str "alice"⟩] 0 rfl rfl rfl
    (by
      intro c hc
      rw [List.mem_singleton] at hc
      subst hc
      exact ⟨Or.inl rfl, trivial⟩)

/-- Counterexample to C1 as stated: the filter `transfer.amount eq 9007199254740993`
has an operator of the five and an unsigned-integer value; the decoder yields the
nearest `float64`, and `buildTxQuery` prints 9007199254740992 where the value in
bare decimal is 9007199254740993. -/
theorem buildTxQuery_rounds_large_integer :
    Demo.json.Unmarshal Demo.largeMsg.TransactionsFilter
        = .ok ([⟨"transfer.amount", "eq", .uint 9007199254740993⟩].map jsonDecode) ∧
      Spec.filterString [⟨"transfer.amount", "eq", .uint 9007199254740993⟩] 0
        = "transfer.amount=9007199254740993 AND tx.height>0" ∧
      (buildTxQuery Demo.json Demo.largeMsg Demo.fresh).1
        = .ok "transfer.amount=9007199254740992 AND tx.height>0" ∧
      (buildTxQuery Demo.json Demo.largeMsg Demo.fresh).1
        ≠ .ok (Spec.filterString [⟨"transfer.amount", "eq", .uint 9007199254740993⟩] 0) := by
  refine ⟨rfl, by decide, rfl, ?_⟩
  intro h
  have h2 : (Except.ok "transfer.amount=9007199254740992 AND tx.height>0" :
      Except GoError String)
      = .ok (Spec.filterString [⟨"transfer.amount", "eq", .uint 9007199254740993⟩] 0) := h
  have h3 := Except.ok.inj h2
  revert h3
  decide

end relay

namespace txprocessor

open relay

/-! ### The unbounded queue -/

theorem makeQueue.step_inv {α : Type} (s s1 : PumpState α) (ev : PumpEvent α) (out : Option α)
    (hs : s.pc = .select → s.queue ≠ [])
    (h : makeQueue.step s ev = some (s1, out)) :
    out.toList ++ s1.queue = s.queue ++ makeQueue.accepted [ev] ∧
      (s1.pc = .select → s1.queue ≠ []) := by
  rcases s with ⟨pc, queue⟩
  cases ev with
  | enq v =>
    cases pc with
    | top =>
      by_cases hq : queue.length = 0
      · simp [makeQueue.step, hq] at h
        obtain ⟨h1, h2⟩ := h
        subst h1 h2
        simp [makeQueue.accepted]
      · simp [makeQueue.step, hq] at h
    | select =>
      cases queue with
      | nil => simp [makeQueue.step] at h
      | cons x rest =>
        simp [makeQueue.step] at h
        obtain ⟨h1, h2⟩ := h
        subst h1 h2
        simp [makeQueue.accepted]
  | deq =>
    cases pc with
    | top => simp [makeQueue.step] at h
    | select =>
      cases queue with
      | nil => simp [makeQueue.step] at h
      | cons x rest =>
        simp [makeQueue.step] at h
        obtain ⟨h1, h2⟩ := h
        subst h1 h2
        simp [makeQueue.accepted]
  | tau =>
    cases pc with
    | top =>
      by_cases hq : queue.length = 0
      · simp [makeQueue.step, hq] at h
      · simp [makeQueue.step, hq] at h
        obtain ⟨h1, h2⟩ := h
        subst h1 h2
        simp only [Option.toList, makeQueue.accepted, List.nil_append, List.append_nil, true_and]
        intro _ hnil
        exact hq (by simp [hnil])
    | select => simp [makeQueue.step] at h

theorem makeQueue.accepted_cons {α : Type} (ev : PumpEvent α) (evs : List (PumpEvent α)) :
    makeQueue.accepted (ev :: evs) = makeQueue.accepted [ev] ++ makeQueue.accepted evs := by
  cases ev <;> simp [makeQueue.accepted]

theorem makeQueue.run_inv {α : Type} (evs : List (PumpEvent α)) (s s1 : PumpState α)
    (outs : List α) (hs : s.pc = .select → s.queue ≠ [])
    (h : makeQueue.run s evs = some (s1, outs)) :
    outs ++ s1.queue = s.queue ++ makeQueue.accepted evs ∧
      (s1.pc = .select → s1.queue ≠ []) := by
  induction evs generalizing s outs with
  | nil =>
    simp [makeQueue.run] at h
    obtain ⟨h1, h2⟩ := h
    subst h1 h2
    simpa [makeQueue.accepted] using hs
  | cons ev evs ih =>
    rw [makeQueue.run] at h
    cases hstep : makeQueue.step s ev with
    | none => simp [hstep] at h
    | some r =>
      rcases r with ⟨s2, out⟩
      cases hrun : makeQueue.run s2 evs with
      | none => simp [hstep, hrun] at h
      | some r2 =>
        rcases r2 with ⟨s3, outs2⟩
        simp [hstep, hrun] at h
        obtain ⟨h1, h2⟩ := h
        subst h1 h2
        obtain ⟨e1, i1⟩ := makeQueue.step_inv s s2 ev out hs hstep
        obtain ⟨e2, i2⟩ := ih s2 outs2 i1 hrun
        refine ⟨?_, i2⟩
        rw [makeQueue.accepted_cons, List.append_assoc, e2, ← List.append_assoc, e1,
          List.append_assoc]

/-- C2: in every state the pump of `makeQueue` reaches, whatever the interleaving
of enqueue and dequeue events, the items delivered on `deq` are a prefix of the
items accepted on `enq`, and the items accepted but not delivered are the buffer,
in arrival order. -/
theorem makeQueue_fifo {α : Type} (evs : List (PumpEvent α)) (s : PumpState α)
    (delivered : List α) (h : makeQueue.run makeQueue evs = some (s, delivered)) :
    delivered <+: makeQueue.accepted evs ∧
      delivered ++ s.queue = makeQueue.accepted evs := by
  have hinv := (makeQueue.run_inv evs makeQueue s delivered (by simp [makeQueue]) h).1
  simp only [makeQueue, List.nil_append] at hinv
  exact ⟨⟨s.queue, hinv⟩, hinv⟩

/-- Witness of C2: three items accepted, two delivered, one left in the buffer. -/
theorem makeQueue_fifo_witness :
    [1, 2] <+: makeQueue.accepted
        [PumpEvent.enq 1, .enq 2, .tau, .deq, .tau, .enq 3, .tau, .deq] ∧
      [1, 2] ++ [3] = makeQueue.accepted
        [PumpEvent.enq 1, .enq 2, .tau, .deq, .tau, .enq 3, .tau, .deq] :=
  makeQueue_fifo [PumpEvent.enq 1, .enq 2, .tau, .deq, .tau, .enq 3, .tau, .deq]
    { pc := .top, queue := [3] } [1, 2] rfl

end txprocessor

namespace relay

/-! ### Deduplication -/

theorem TxExists_seen (env : Env) (queryID : Nat) (hash : String) (w : World)
    (hex : (w.statuses queryID hash).isSome = true)
    (hok : ∀ n, env.storageErr (.TxExists queryID hash) n = none) :
    Storage.TxExists env queryID hash w = (.ok true, w.emit (.TxExists queryID hash)) := by
  simp [Storage.TxExists, hok, hex]

theorem SetLastQueryHeight_ok (env : Env) (queryID height : Nat) (w : World)
    (h : env.storageErr (.SetLastQueryHeight queryID height) w.trace.length = none) :
    Storage.SetLastQueryHeight env queryID height w = (none, w.saved queryID height) := by
  simp only [Storage.SetLastQueryHeight, h]
  rfl

theorem SetLastQueryHeight_err (env : Env) (queryID height : Nat) (w : World) (err : GoError)
    (h : env.storageErr (.SetLastQueryHeight queryID height) w.trace.length = some err) :
    Storage.SetLastQueryHeight env queryID height w
      = (some err, w.emit (.SetLastQueryHeight queryID height (w.heights queryID))) := by
  simp only [Storage.SetLastQueryHeight, h]

/-- C3: when `TxExists(q, hash(tx))` is true, `ProcessAndSubmit` returns nil and
its only call is the `TxExists` read (no header fetch, no submission, no status
write, nothing enqueued), and the iteration of `processMessageTX` for `tx` makes
no call besides the watermark write for the height before it and the `TxExists`
read, leaves the statuses as they were, and goes on to the next transaction
unless that watermark write failed. -/
theorem txExists_skips (env : Env) (queryID : Nat) (tx : Transaction) (w : World)
    (lastProcessedHeight : Nat)
    (hex : (w.statuses queryID (env.Hash tx.Tx.Data)).isSome = true)
    (hok : ∀ n, env.storageErr (.TxExists queryID (env.Hash tx.Tx.Data)) n = none) :
    txprocessor.ProcessAndSubmit env queryID tx w
        = (none, w.emit (.TxExists queryID (env.Hash tx.Tx.Data))) ∧
      (∃ evs, (processMessageTX.body env queryID tx lastProcessedHeight w).2.trace
          = w.trace ++ evs ∧
        ∀ e ∈ evs, e = .TxExists queryID (env.Hash tx.Tx.Data) ∨
          e = .SetLastQueryHeight queryID lastProcessedHeight (w.heights queryID)) ∧
      (processMessageTX.body env queryID tx lastProcessedHeight w).2.statuses = w.statuses ∧
      ((processMessageTX.body env queryID tx lastProcessedHeight w).1 = .ok tx.Height ∨
        ∃ err, env.storageErr (.SetLastQueryHeight queryID lastProcessedHeight) w.trace.length
            = some err ∧
          (processMessageTX.body env queryID tx lastProcessedHeight w).1
            = .error (.wrapped "failed to save last height of query: " err)) := by
  refine ⟨?_, ?_⟩
  · simp [txprocessor.ProcessAndSubmit, TxExists_seen env queryID _ w hex hok]
  · have hd : ∀ w1 : World, w1.statuses = w.statuses →
        processMessageTX.dedup env queryID tx w1
          = (.ok tx.Height, w1.emit (.TxExists queryID (env.Hash tx.Tx.Data))) := by
      intro w1 h1
      unfold processMessageTX.dedup
      dsimp only
      rw [TxExists_seen env queryID _ w1 (by rw [h1]; exact hex) hok]
      dsimp only
      rw [if_pos rfl]
    unfold processMessageTX.body
    by_cases hc : tx.Height > lastProcessedHeight ∧ lastProcessedHeight > 0
    · rw [if_pos hc]
      cases hs : env.storageErr (.SetLastQueryHeight queryID lastProcessedHeight)
          w.trace.length with
      | some err =>
        rw [SetLastQueryHeight_err env queryID lastProcessedHeight w err hs]
        refine ⟨⟨[_], rfl, ?_⟩, rfl, Or.inr ⟨err, rfl, rfl⟩⟩
        intro e he
        rw [List.mem_singleton] at he
        exact Or.inr he
      | none =>
        rw [SetLastQueryHeight_ok env queryID lastProcessedHeight w hs]
        dsimp only
        rw [hd (w.saved queryID lastProcessedHeight) rfl]
        refine ⟨⟨[.SetLastQueryHeight queryID lastProcessedHeight (w.heights queryID),
          .TxExists queryID (env.Hash tx.Tx.Data)], by simp [World.emit, World.saved], ?_⟩,
          rfl, Or.inl rfl⟩
        intro e he
        simp only [List.mem_cons, List.mem_singleton, List.not_mem_nil, or_false] at he
        rcases he with he | he
        · exact Or.inr he
        · exact Or.inl he
    · rw [if_neg hc]
      dsimp only
      rw [hd w rfl]
      refine ⟨⟨[_], rfl, ?_⟩, rfl, Or.inl rfl⟩
      intro e he
      rw [List.mem_singleton] at he
      exact Or.inl he

/-- Witness of C3: the first match is already recorded for query 1. -/
theorem txExists_skips_witness :
    txprocessor.ProcessAndSubmit Demo.env 1 Demo.tx100 Demo.seen
        = (none, Demo.seen.emit (.TxExists 1 "a")) ∧
      (processMessageTX.body Demo.env 1 Demo.tx100 0 Demo.seen).1 = .ok 100 := by
  have h := txExists_skips Demo.env 1 Demo.tx100 Demo.seen 0 rfl (fun _ => rfl)
  exact ⟨h.1, rfl⟩

end relay

namespace relay

/-! ### Steps that write no watermark -/

theorem StatusStep.refl (w : World) : w.StatusStep w :=
  ⟨rfl, fun _ _ h => h, [], by simp, by simp⟩

theorem StatusStep.trans {w w1 w2 : World} (h1 : w.StatusStep w1) (h2 : w1.StatusStep w2) :
    w.StatusStep w2 := by
  obtain ⟨a1, b1, e1, c1, d1⟩ := h1
  obtain ⟨a2, b2, e2, c2, d2⟩ := h2
  refine ⟨a2.trans a1, fun q h hq => b2 q h (b1 q h hq), e1 ++ e2, ?_, ?_⟩
  · rw [c2, c1, List.append_assoc]
  · intro e he
    rcases List.mem_append.mp he with he | he
    · exact d1 e he
    · exact d2 e he

theorem StatusStep.emit (w : World) (e : Event) (he : e.isHeightWrite = false) :
    w.StatusStep (w.emit e) :=
  ⟨rfl, fun _ _ h => h, [e], rfl, by simpa using he⟩

theorem TxExists_step (env : Env) (queryID : Nat) (hash : String) (w : World) :
    w.StatusStep (Storage.TxExists env queryID hash w).2 ∧
      ((Storage.TxExists env queryID hash w).1 = .ok true → w.hasTx queryID hash) := by
  unfold Storage.TxExists
  cases env.storageErr (.TxExists queryID hash) w.trace.length with
  | some err => exact ⟨StatusStep.emit w _ rfl, by simp⟩
  | none =>
    refine ⟨StatusStep.emit w _ rfl, ?_⟩
    intro h
    simpa [World.hasTx] using h

theorem SetTxStatus_step (env : Env) (queryID : Nat) (hash neutronHash : String)
    (info : SubmittedTxInfo) (w : World) :
    w.StatusStep (Storage.SetTxStatus env queryID hash neutronHash info w).2 ∧
      ((Storage.SetTxStatus env queryID hash neutronHash info w).1 = none →
        (Storage.SetTxStatus env queryID hash neutronHash info w).2.hasTx queryID hash) := by
  unfold Storage.SetTxStatus
  cases env.storageErr (.SetTxStatus queryID hash neutronHash info) w.trace.length with
  | some err => exact ⟨StatusStep.emit w _ rfl, by simp⟩
  | none =>
    refine ⟨⟨rfl, ?_, [_], rfl, by simp [Event.isHeightWrite]⟩, ?_⟩
    · intro q h hq
      simp only [World.hasTx, World.emit] at hq ⊢
      by_cases hc : q = queryID ∧ h = hash
      · simp [hc]
      · simpa [hc] using hq
    · intro _
      simp [World.hasTx]

theorem prepareHeaders_step (env : Env) (tx : Transaction) (w : World) :
    w.StatusStep (txprocessor.prepareHeaders env tx w).2 := by
  unfold txprocessor.prepareHeaders
  have s1 := StatusStep.emit w (.GetHeaderWithBestTrustedHeight tx.Height) rfl
  have s2 := StatusStep.trans s1 (StatusStep.emit _
    (.GetHeaderWithBestTrustedHeight ((tx.Height + 1) % uint64Size)) rfl)
  cases env.GetHeaderWithBestTrustedHeight w.trace.length tx.Height with
  | error err => exact s1
  | ok header =>
    dsimp only
    cases env.PackHeader header with
    | error err => exact s1
    | ok packedHeader =>
      dsimp only
      cases env.GetHeaderWithBestTrustedHeight _ ((tx.Height + 1) % uint64Size) with
      | error err => exact s2
      | ok nextHeader =>
        dsimp only
        cases env.PackHeader nextHeader with
        | error err => exact s2
        | ok packedNextHeader => exact s2

theorem txToBlock_step (env : Env) (tx : Transaction) (w : World) :
    w.StatusStep (txprocessor.txToBlock env tx w).2 ∧
      ∀ block, (txprocessor.txToBlock env tx w).1 = .ok block → block.Tx = tx.Tx := by
  have h := prepareHeaders_step env tx w
  unfold txprocessor.txToBlock
  rcases hp : txprocessor.prepareHeaders env tx w with ⟨r, w1⟩
  rw [hp] at h
  cases r with
  | error err => exact ⟨h, by simp⟩
  | ok hs =>
    rcases hs with ⟨a, b⟩
    refine ⟨h, ?_⟩
    intro block hb
    simp only [Except.ok.injEq] at hb
    rw [← hb]

theorem submitTxWithProofs_step (env : Env) (queryID : Nat) (block : Block) (w : World) :
    w.StatusStep (txprocessor.submitTxWithProofs env queryID block w).2 ∧
      ((txprocessor.submitTxWithProofs env queryID block w).1 = none →
        (txprocessor.submitTxWithProofs env queryID block w).2.hasTx queryID
          (env.Hash block.Tx.Data)) := by
  unfold txprocessor.submitTxWithProofs
  have s1 := StatusStep.emit w (.SubmitTxProof queryID block) rfl
  rcases hsub : env.SubmitTxProof w.trace.length queryID block with ⟨neutronTxHash, r⟩
  cases r with
  | some err =>
    dsimp only
    have s2 := StatusStep.trans s1 (StatusStep.emit _ (.AddFailedProof InterchainQueryTypeTX) rfl)
    have s3 := SetTxStatus_step env queryID (env.Hash block.Tx.Data) neutronTxHash
      { Status := .ErrorOnSubmit, Message := err.Error }
      ((w.emit (.SubmitTxProof queryID block)).emit (.AddFailedProof InterchainQueryTypeTX))
    rcases hset : Storage.SetTxStatus env queryID (env.Hash block.Tx.Data) neutronTxHash
      { Status := .ErrorOnSubmit, Message := err.Error }
      ((w.emit (.SubmitTxProof queryID block)).emit (.AddFailedProof InterchainQueryTypeTX))
      with ⟨r2, w3⟩
    rw [hset] at s3
    cases r2 with
    | some e2 => exact ⟨StatusStep.trans s2 s3.1, by simp⟩
    | none => exact ⟨StatusStep.trans s2 s3.1, by simp⟩
  | none =>
    dsimp only
    have s2 := StatusStep.trans s1 (StatusStep.emit _ (.AddSuccessProof InterchainQueryTypeTX) rfl)
    have s3 := SetTxStatus_step env queryID (env.Hash block.Tx.Data) neutronTxHash
      { Status := .Submitted, Message := "" }
      ((w.emit (.SubmitTxProof queryID block)).emit (.AddSuccessProof InterchainQueryTypeTX))
    rcases hset : Storage.SetTxStatus env queryID (env.Hash block.Tx.Data) neutronTxHash
      { Status := .Submitted, Message := "" }
      ((w.emit (.SubmitTxProof queryID block)).emit (.AddSuccessProof InterchainQueryTypeTX))
      with ⟨r2, w3⟩
    rw [hset] at s3
    cases r2 with
    | some e2 => exact ⟨StatusStep.trans s2 s3.1, by simp⟩
    | none =>
      dsimp only
      refine ⟨StatusStep.trans (StatusStep.trans s2 s3.1) (StatusStep.emit _ _ rfl), ?_⟩
      intro _
      exact s3.2 rfl

theorem ProcessAndSubmit_step (env : Env) (queryID : Nat) (tx : Transaction) (w : World) :
    w.StatusStep (txprocessor.ProcessAndSubmit env queryID tx w).2 ∧
      ((txprocessor.ProcessAndSubmit env queryID tx w).1 = none →
        (txprocessor.ProcessAndSubmit env queryID tx w).2.hasTx queryID
          (env.Hash tx.Tx.Data)) := by
  unfold txprocessor.ProcessAndSubmit
  dsimp only
  have t1 := TxExists_step env queryID (env.Hash tx.Tx.Data) w
  rcases hex : Storage.TxExists env queryID (env.Hash tx.Tx.Data) w with ⟨r, w1⟩
  rw [hex] at t1
  cases r with
  | error err => exact ⟨t1.1, by simp⟩
  | ok txExists =>
    dsimp only
    cases txExists with
    | true =>
      rw [if_pos rfl]
      exact ⟨t1.1, fun _ => t1.1.2.1 _ _ (t1.2 rfl)⟩
    | false =>
      rw [if_neg (by simp)]
      have t2 := txToBlock_step env tx w1
      rcases hblock : txprocessor.txToBlock env tx w1 with ⟨rb, w2⟩
      rw [hblock] at t2
      cases rb with
      | error err => exact ⟨StatusStep.trans t1.1 t2.1, by simp⟩
      | ok block =>
        dsimp only
        have hb : block.Tx = tx.Tx := t2.2 block rfl
        have t3 := submitTxWithProofs_step env queryID block w2
        rcases hsub : txprocessor.submitTxWithProofs env queryID block w2 with ⟨rs, w3⟩
        rw [hsub] at t3
        cases rs with
        | some err => exact ⟨StatusStep.trans (StatusStep.trans t1.1 t2.1) t3.1, by simp⟩
        | none =>
          refine ⟨StatusStep.trans (StatusStep.trans t1.1 t2.1) t3.1, ?_⟩
          intro _
          have := t3.2 rfl
          rwa [hb] at this

end relay

namespace relay

/-! ### One iteration of the loop, and the loop -/

theorem dedup_step (env : Env) (queryID : Nat) (tx : Transaction) (w : World) :
    w.StatusStep (processMessageTX.dedup env queryID tx w).2 ∧
      (((processMessageTX.dedup env queryID tx w).1 = .ok tx.Height ∧
          (processMessageTX.dedup env queryID tx w).2.hasTx queryID (env.Hash tx.Tx.Data)) ∨
        ∃ e, (processMessageTX.dedup env queryID tx w).1 = .error e) := by
  unfold processMessageTX.dedup
  dsimp only
  have t1 := TxExists_step env queryID (env.Hash tx.Tx.Data) w
  rcases hex : Storage.TxExists env queryID (env.Hash tx.Tx.Data) w with ⟨r, w1⟩
  rw [hex] at t1
  cases r with
  | error err => exact ⟨t1.1, Or.inr ⟨_, rfl⟩⟩
  | ok txExists =>
    dsimp only
    cases txExists with
    | true =>
      rw [if_pos rfl]
      exact ⟨t1.1, Or.inl ⟨rfl, t1.1.2.1 _ _ (t1.2 rfl)⟩⟩
    | false =>
      rw [if_neg (by simp)]
      have t2 := ProcessAndSubmit_step env queryID tx w1
      rcases hps : txprocessor.ProcessAndSubmit env queryID tx w1 with ⟨rs, w2⟩
      rw [hps] at t2
      cases rs with
      | some err => exact ⟨StatusStep.trans t1.1 t2.1, Or.inr ⟨_, rfl⟩⟩
      | none => exact ⟨StatusStep.trans t1.1 t2.1, Or.inl ⟨rfl, t2.2 rfl⟩⟩

theorem body_spec (env : Env) (queryID : Nat) (tx : Transaction) (lph : Nat) (w : World)
    (r : Except GoError Nat) (w1 : World)
    (hb : processMessageTX.body env queryID tx lph w = (r, w1)) :
    (∃ err, (tx.Height > lph ∧ lph > 0) ∧
        env.storageErr (.SetLastQueryHeight queryID lph) w.trace.length = some err ∧
        r = .error (.wrapped "failed to save last height of query: " err) ∧
        w1 = w.emit (.SetLastQueryHeight queryID lph (w.heights queryID))) ∨
      (∃ w0, (((tx.Height > lph ∧ lph > 0) ∧
            env.storageErr (.SetLastQueryHeight queryID lph) w.trace.length = none ∧
            w0 = w.saved queryID lph) ∨
          (¬(tx.Height > lph ∧ lph > 0) ∧ w0 = w)) ∧
        w0.StatusStep w1 ∧
        ((r = .ok tx.Height ∧ w1.hasTx queryID (env.Hash tx.Tx.Data)) ∨ ∃ e, r = .error e)) := by
  unfold processMessageTX.body at hb
  by_cases hc : tx.Height > lph ∧ lph > 0
  · rw [if_pos hc] at hb
    cases hs : env.storageErr (.SetLastQueryHeight queryID lph) w.trace.length with
    | some err =>
      rw [SetLastQueryHeight_err env queryID lph w err hs] at hb
      simp only [Prod.mk.injEq] at hb
      exact Or.inl ⟨err, hc, rfl, hb.1.symm, hb.2.symm⟩
    | none =>
      rw [SetLastQueryHeight_ok env queryID lph w hs] at hb
      dsimp only at hb
      have hd := dedup_step env queryID tx (w.saved queryID lph)
      rw [hb] at hd
      exact Or.inr ⟨_, Or.inl ⟨hc, rfl, rfl⟩, hd.1, hd.2⟩
  · rw [if_neg hc] at hb
    dsimp only at hb
    have hd := dedup_step env queryID tx w
    rw [hb] at hd
    exact Or.inr ⟨_, Or.inr ⟨hc, rfl⟩, hd.1, hd.2⟩

/-- The invariant rule of the loop: a property of the transactions still to come,
`lastProcessedHeight` and the world that every successful iteration keeps holds
when the loop ends; a property that every failing iteration establishes holds
when the loop returns early. -/
theorem loop_induct (env : Env) (queryID : Nat)
    (P : List Transaction → Nat → World → Prop) (Q : World → Prop)
    (herr : ∀ tx rest lph w e w1, P (tx :: rest) lph w →
      processMessageTX.body env queryID tx lph w = (.error e, w1) → Q w1)
    (hok : ∀ tx rest lph w h w1, P (tx :: rest) lph w →
      processMessageTX.body env queryID tx lph w = (.ok h, w1) → P rest h w1)
    (txs : List Transaction) (lph : Nat) (w : World) (hP : P txs lph w) :
    (∀ e w1, processMessageTX.loop env queryID txs lph w = (.error e, w1) → Q w1) ∧
      (∀ h w1, processMessageTX.loop env queryID txs lph w = (.ok h, w1) → P [] h w1) := by
  induction txs generalizing lph w with
  | nil =>
    constructor
    · intro e w1 h
      simp [processMessageTX.loop] at h
    · intro h w1 hl
      simp only [processMessageTX.loop, Prod.mk.injEq, Except.ok.injEq] at hl
      rw [← hl.1, ← hl.2]
      exact hP
  | cons tx rest ih =>
    rw [processMessageTX.loop]
    rcases hb : processMessageTX.body env queryID tx lph w with ⟨r, w2⟩
    cases r with
    | error e0 =>
      dsimp only
      constructor
      · intro e w1 h
        simp only [Prod.mk.injEq, Except.error.injEq] at h
        rw [← h.2]
        exact herr tx rest lph w e0 w2 hP hb
      · intro h w1 hl
        simp at hl
    | ok h0 =>
      dsimp only
      exact ih h0 w2 (hok tx rest lph w h0 w2 hP hb)

end relay

namespace relay

/-! ### The watermark covers only recorded transactions -/

theorem covers_of_step {env : Env} {queryID : Nat} {txs : List Transaction} {w w1 : World}
    (h : w.StatusStep w1) (hc : w.covers env queryID txs) : w1.covers env queryID txs := by
  intro W hW t ht hle
  rw [h.1] at hW
  exact h.2.1 _ _ (hc W hW t ht hle)

theorem covers_emit {env : Env} {queryID : Nat} {txs : List Transaction} {w : World}
    (e : Event) (hc : w.covers env queryID txs) : (w.emit e).covers env queryID txs :=
  fun W hW t ht hle => hc W hW t ht hle

theorem covers_saved {env : Env} {queryID : Nat} {txs : List Transaction} {w : World}
    (height : Nat)
    (hall : ∀ t ∈ txs, t.Height ≤ height → w.hasTx queryID (env.Hash t.Tx.Data)) :
    (w.saved queryID height).covers env queryID txs := by
  intro W hW t ht hle
  simp only [World.saved, if_true, Option.some.injEq] at hW
  rw [← hW] at hle
  exact hall t ht hle

theorem loop_covers (env : Env) (queryID : Nat) (all txs : List Transaction) (lph : Nat)
    (w : World) (hasc : ascending txs)
    (hdone : ∀ t ∈ all, t ∈ txs ∨ w.hasTx queryID (env.Hash t.Tx.Data))
    (hcov : w.covers env queryID all) :
    (∀ e w1, processMessageTX.loop env queryID txs lph w = (.error e, w1) →
        w1.covers env queryID all) ∧
      (∀ h w1, processMessageTX.loop env queryID txs lph w = (.ok h, w1) →
        w1.covers env queryID all ∧ ∀ t ∈ all, w1.hasTx queryID (env.Hash t.Tx.Data)) := by
  have key := loop_induct env queryID
    (fun rest _ w => ascending rest ∧
      (∀ t ∈ all, t ∈ rest ∨ w.hasTx queryID (env.Hash t.Tx.Data)) ∧ w.covers env queryID all)
    (fun w => w.covers env queryID all) ?_ ?_ txs lph w ⟨hasc, hdone, hcov⟩
  · refine ⟨key.1, ?_⟩
    intro h w1 hl
    obtain ⟨_, hd, hc⟩ := key.2 h w1 hl
    refine ⟨hc, fun t ht => ?_⟩
    rcases hd t ht with hin | hin
    · simp at hin
    · exact hin
  · intro tx rest lph w e w1 hP hb
    obtain ⟨hsorted, hd, hc⟩ := hP
    rcases body_spec env queryID tx lph w _ w1 hb with ⟨err, _, _, _, hw⟩ | ⟨w0, hw0, hstep, _⟩
    · rw [hw]
      exact covers_emit _ hc
    · refine covers_of_step hstep ?_
      rcases hw0 with ⟨hcond, _, hw0⟩ | ⟨_, hw0⟩
      · rw [hw0]
        refine covers_saved lph ?_
        intro t ht hle
        rcases hd t ht with hin | hin
        · exfalso
          have hge : tx.Height ≤ t.Height := by
            rcases List.mem_cons.mp hin with hin | hin
            · rw [hin]
            · exact (List.pairwise_cons.mp hsorted).1 t hin
          omega
        · exact hin
      · rw [hw0]
        exact hc
  · intro tx rest lph w h w1 hP hb
    obtain ⟨hsorted, hd, hc⟩ := hP
    rcases body_spec env queryID tx lph w _ w1 hb with ⟨err, _, _, hr, _⟩ | ⟨w0, hw0, hstep, hres⟩
    · simp at hr
    · have hw0s : w0.statuses = w.statuses := by
        rcases hw0 with ⟨_, _, hw0⟩ | ⟨_, hw0⟩
        · rw [hw0]
          rfl
        · rw [hw0]
      have htx : w1.hasTx queryID (env.Hash tx.Tx.Data) := by
        rcases hres with ⟨_, hx⟩ | ⟨e, he⟩
        · exact hx
        · simp at he
      refine ⟨(List.pairwise_cons.mp hsorted).2, ?_, ?_⟩
      · intro t ht
        rcases hd t ht with hin | hin
        · rcases List.mem_cons.mp hin with hin | hin
          · rw [hin]
            exact Or.inr htx
          · exact Or.inl hin
        · refine Or.inr (hstep.2.1 _ _ ?_)
          simpa only [World.hasTx, hw0s] using hin
      · refine covers_of_step hstep ?_
        rcases hw0 with ⟨hcond, _, hw0⟩ | ⟨_, hw0⟩
        · rw [hw0]
          refine covers_saved lph ?_
          intro t ht hle
          rcases hd t ht with hin | hin
          · exfalso
            have hge : tx.Height ≤ t.Height := by
              rcases List.mem_cons.mp hin with hin | hin
              · rw [hin]
              · exact (List.pairwise_cons.mp hsorted).1 t hin
            omega
          · exact hin
        · rw [hw0]
          exact hc

theorem search_covers (env : Env) (queryID : Nat) (queryString : String) (w : World)
    (hasc : ascending (env.SearchTransactions w.trace.length queryString).1)
    (habove : ∀ W, w.heights queryID = some W →
      ∀ t ∈ (env.SearchTransactions w.trace.length queryString).1, W < t.Height) :
    (processMessageTX.search env queryID queryString w).2.covers env queryID
      (env.SearchTransactions w.trace.length queryString).1 := by
  have hcov : (w.emit (.SearchTransactions queryString)).covers env queryID
      (env.SearchTransactions w.trace.length queryString).1 := by
    intro W hW t ht hle
    have := habove W hW t ht
    omega
  have key := loop_covers env queryID (env.SearchTransactions w.trace.length queryString).1
    (env.SearchTransactions w.trace.length queryString).1 0
    (w.emit (.SearchTransactions queryString)) hasc (fun t ht => Or.inl ht) hcov
  unfold processMessageTX.search
  dsimp only
  rcases hl : processMessageTX.loop env queryID
    (env.SearchTransactions w.trace.length queryString).1 0
    (w.emit (.SearchTransactions queryString)) with ⟨r, w2⟩
  cases r with
  | error e => exact key.1 e w2 hl
  | ok lph =>
    obtain ⟨hc, hall⟩ := key.2 lph w2 hl
    dsimp only
    cases (env.SearchTransactions w.trace.length queryString).2 with
    | some stoppedWithErr => exact hc
    | none =>
      dsimp only
      by_cases hpos : lph > 0
      · rw [if_pos hpos]
        cases hs : env.storageErr (.SetLastQueryHeight queryID lph) w2.trace.length with
        | some err =>
          rw [SetLastQueryHeight_err env queryID lph w2 err hs]
          exact covers_emit _ hc
        | none =>
          rw [SetLastQueryHeight_ok env queryID lph w2 hs]
          exact covers_saved lph (fun t ht _ => hall t ht)
      · rw [if_neg hpos]
        exact hc

/-- C5: however a pass of `processMessageTX` ends, every transaction of its search
stream (ordered by ascending height, all heights above the watermark stored when
the search started) whose height is at or below the watermark stored at the end
of the pass has a status stored, so `TxExists` is true for it. -/
theorem processMessageTX_watermark_covers (env : Env) (m : MessageTX) (w : World)
    (queryString : String) (w1 : World)
    (hq : buildTxQuery env m w = (.ok queryString, w1))
    (hasc : ascending (env.SearchTransactions w1.trace.length queryString).1)
    (habove : ∀ W, w1.heights m.QueryId = some W →
      ∀ t ∈ (env.SearchTransactions w1.trace.length queryString).1, W < t.Height) :
    ∀ t ∈ (env.SearchTransactions w1.trace.length queryString).1,
      ∀ Wend, (processMessageTX env m w).2.heights m.QueryId = some Wend →
        t.Height ≤ Wend →
        ((processMessageTX env m w).2.statuses m.QueryId (env.Hash t.Tx.Data)).isSome = true := by
  intro t ht Wend hW hle
  have h := search_covers env m.QueryId queryString w1 hasc habove
  have hp : processMessageTX env m w = processMessageTX.search env m.QueryId queryString w1 := by
    unfold processMessageTX
    rw [hq]
  rw [hp] at hW ⊢
  exact h Wend hW t ht hle

/-- Witness of C5: the proof of the second match is rejected, the pass ends with
an error and watermark 100, and the match at height 100 is recorded. -/
theorem processMessageTX_watermark_covers_witness :
    (processMessageTX Demo.rejecting Demo.msg Demo.fresh).2.heights 1 = some 100 ∧
      ((processMessageTX Demo.rejecting Demo.msg Demo.fresh).2.statuses 1 "a").isSome = true :=
  ⟨rfl, processMessageTX_watermark_covers Demo.rejecting Demo.msg Demo.fresh
    "transfer.recipient='alice' AND tx.height>0" (Demo.fresh.emit (.GetLastQueryHeight 1)) rfl
    (by unfold ascending; decide)
    (by
      intro W hW t ht
      have hW0 : 0 = W := Option.some.inj hW
      subst hW0
      rcases List.mem_cons.mp ht with h | h
      · subst h
        decide
      · rw [List.mem_singleton] at h
        subst h
        decide)
    Demo.tx100 (List.mem_cons_self _ _) 100 rfl (Nat.le_refl 100)⟩

end relay

namespace relay

/-! ### The watermark the loop leaves -/

theorem heights_fst (hs : List Nat) (lph : Nat) (stored : Option Nat) :
    (processMessageTX.heights hs lph stored).1 = hs.getLastD lph := by
  induction hs generalizing lph stored with
  | nil => rfl
  | cons h rest ih => rw [processMessageTX.heights, ih, List.getLastD_cons]

theorem le_getLastD (hs : List Nat) (a : Nat) (hsorted : (a :: hs).Pairwise (· ≤ ·)) :
    ∀ x ∈ a :: hs, x ≤ hs.getLastD a := by
  induction hs generalizing a with
  | nil =>
    intro x hx
    rw [List.mem_singleton] at hx
    rw [hx]
    exact Nat.le_refl _
  | cons h rest ih =>
    intro x hx
    rw [List.getLastD_cons]
    have hrest := (List.pairwise_cons.mp hsorted).2
    rcases List.mem_cons.mp hx with hx | hx
    · rw [hx]
      exact Nat.le_trans ((List.pairwise_cons.mp hsorted).1 h (List.mem_cons_self _ _))
        (ih h hrest h (List.mem_cons_self _ _))
    · exact ih h hrest x hx

theorem heights_completed (hs : List Nat) (lph : Nat) (stored : Option Nat) (hpos : 0 < lph)
    (hsorted : (lph :: hs).Pairwise (· ≤ ·)) :
    ((∃ x ∈ lph :: hs, x < hs.getLastD lph) →
        ∃ W, (processMessageTX.heights hs lph stored).2 = some W ∧ W ∈ lph :: hs ∧
          W < hs.getLastD lph ∧ ∀ x ∈ lph :: hs, x < hs.getLastD lph → x ≤ W) ∧
      ((¬∃ x ∈ lph :: hs, x < hs.getLastD lph) →
        (processMessageTX.heights hs lph stored).2 = stored) := by
  induction hs generalizing lph stored with
  | nil =>
    constructor
    · rintro ⟨x, hx, hlt⟩
      rw [List.mem_singleton] at hx
      rw [hx] at hlt
      exact absurd hlt (Nat.lt_irrefl _)
    · intro _
      rfl
  | cons h rest ih =>
    have hle : lph ≤ h := (List.pairwise_cons.mp hsorted).1 h (List.mem_cons_self _ _)
    have hrest := (List.pairwise_cons.mp hsorted).2
    have hmax := le_getLastD rest h hrest
    have hmin : ∀ x ∈ h :: rest, h ≤ x := by
      intro x hx
      rcases List.mem_cons.mp hx with hx | hx
      · rw [hx]
      · exact (List.pairwise_cons.mp hrest).1 x hx
    rw [List.getLastD_cons, processMessageTX.heights]
    obtain ⟨ih1, ih2⟩ := ih h
      (if h > lph ∧ lph > 0 then some lph else stored) (Nat.lt_of_lt_of_le hpos hle) hrest
    by_cases hA : ∃ x ∈ h :: rest, x < rest.getLastD h
    · obtain ⟨W, hW, hmem, hlt, hgreat⟩ := ih1 hA
      obtain ⟨x, hx, hxlt⟩ := hA
      have hhW : h ≤ W := hgreat h (List.mem_cons_self _ _) (Nat.lt_of_le_of_lt (hmin x hx) hxlt)
      constructor
      · intro _
        refine ⟨W, hW, List.mem_cons_of_mem _ hmem, hlt, ?_⟩
        intro y hy hylt
        rcases List.mem_cons.mp hy with hy | hy
        · rw [hy]
          exact Nat.le_trans hle hhW
        · exact hgreat y hy hylt
      · intro hno
        exact absurd ⟨x, List.mem_cons_of_mem _ hx, hxlt⟩ hno
    · have hres := ih2 hA
      have hall : ∀ x ∈ h :: rest, x = rest.getLastD h := by
        intro x hx
        have h1 := hmax x hx
        have h2 : ¬ x < rest.getLastD h := fun hlt => hA ⟨x, hx, hlt⟩
        omega
      have hh : h = rest.getLastD h := hall h (List.mem_cons_self _ _)
      by_cases hlt : lph < h
      · rw [if_pos ⟨hlt, hpos⟩] at hres ⊢
        constructor
        · intro _
          refine ⟨lph, hres, List.mem_cons_self _ _, by omega, ?_⟩
          intro y hy hylt
          rcases List.mem_cons.mp hy with hy | hy
          · rw [hy]
          · exact absurd hylt (by rw [hall y hy]; exact Nat.lt_irrefl _)
        · intro hno
          exact absurd ⟨lph, List.mem_cons_self _ _, by omega⟩ hno
      · have heq : lph = h := by omega
        rw [if_neg (by omega)] at hres ⊢
        constructor
        · rintro ⟨y, hy, hylt⟩
          rcases List.mem_cons.mp hy with hy | hy
          · omega
          · exact absurd hylt (by rw [hall y hy]; exact Nat.lt_irrefl _)
        · intro _
          exact hres

theorem heights_from_zero (hs : List Nat) (stored : Option Nat) (hpos : ∀ x ∈ hs, 0 < x)
    (hsorted : hs.Pairwise (· ≤ ·)) :
    (Spec.someCompleted hs →
        ∃ W, (processMessageTX.heights hs 0 stored).2 = some W ∧ Spec.lastCompleted hs W) ∧
      (¬Spec.someCompleted hs → (processMessageTX.heights hs 0 stored).2 = stored) := by
  cases hs with
  | nil =>
    constructor
    · rintro ⟨hn, h, _⟩
      simp at h
    · intro _
      rfl
  | cons h rest =>
    have hlast : (h :: rest).getLast? = some (rest.getLastD h) := by
      rw [List.getLast?_cons, List.getLastD_eq_getLast?]
    obtain ⟨c1, c2⟩ := heights_completed rest h stored (hpos h (List.mem_cons_self _ _)) hsorted
    have hstep : processMessageTX.heights (h :: rest) 0 stored
        = processMessageTX.heights rest h stored := by
      rw [processMessageTX.heights, if_neg (by omega)]
    rw [hstep]
    constructor
    · rintro ⟨hn, hl, x, hx, hxlt⟩
      rw [hlast] at hl
      have hl := Option.some.inj hl
      rw [← hl] at hxlt
      obtain ⟨W, hW, hmem, hlt, hgreat⟩ := c1 ⟨x, hx, hxlt⟩
      exact ⟨W, hW, rest.getLastD h, hlast, hmem, hlt, hgreat⟩
    · intro hno
      exact c2 (fun ⟨x, hx, hxlt⟩ => hno ⟨rest.getLastD h, hlast, x, hx, hxlt⟩)

end relay

namespace relay

theorem loop_heights (env : Env) (queryID : Nat) (txs : List Transaction) (lph : Nat)
    (w : World) (h : Nat) (w1 : World)
    (hl : processMessageTX.loop env queryID txs lph w = (.ok h, w1)) :
    (h, w1.heights queryID)
      = processMessageTX.heights (txs.map (·.Height)) lph (w.heights queryID) := by
  have key := loop_induct env queryID
    (fun rest l w0 => processMessageTX.heights (rest.map (·.Height)) l (w0.heights queryID)
      = processMessageTX.heights (txs.map (·.Height)) lph (w.heights queryID))
    (fun _ => True) (fun _ _ _ _ _ _ _ _ => trivial) ?_ txs lph w rfl
  · exact key.2 h w1 hl
  · intro tx rest l w0 h1 w2 hP hb
    dsimp only at hP ⊢
    rw [← hP, List.map_cons, processMessageTX.heights]
    rcases body_spec env queryID tx l w0 _ w2 hb with ⟨err, _, _, hr, _⟩ | ⟨w3, hw3, hstep, hres⟩
    · simp at hr
    · have hh : h1 = tx.Height := by
        rcases hres with ⟨hr, _⟩ | ⟨e, he⟩
        · exact Except.ok.inj hr
        · simp at he
      rw [hh, hstep.1]
      rcases hw3 with ⟨hcond, _, hw3⟩ | ⟨hcond, hw3⟩
      · rw [hw3, if_pos hcond]
        simp [World.saved]
      · rw [hw3, if_neg hcond]

theorem search_stream_error (env : Env) (queryID : Nat) (queryString : String) (w : World)
    (txs : List Transaction) (stoppedWithErr : GoError) (lph : Nat) (w2 : World)
    (hs : env.SearchTransactions w.trace.length queryString = (txs, some stoppedWithErr))
    (hloop : processMessageTX.loop env queryID txs 0 (w.emit (.SearchTransactions queryString))
      = (.ok lph, w2)) :
    processMessageTX.search env queryID queryString w
      = (some (.wrapped "failed to query txs: " stoppedWithErr), w2) := by
  unfold processMessageTX.search
  simp only [hs, hloop]

/-- C7: when the stream delivers transactions of ascending heights, all processed
without failure, and then closes with an error, `processMessageTX` returns an
error and the stored watermark is the greatest height of the stream strictly
below the height of its last transaction, or, when there is no such height, the
value stored when the search started. -/
theorem processMessageTX_stream_error (env : Env) (m : MessageTX) (w : World)
    (queryString : String) (w1 : World) (txs : List Transaction) (stoppedWithErr : GoError)
    (lph : Nat) (w2 : World)
    (hq : buildTxQuery env m w = (.ok queryString, w1))
    (hs : env.SearchTransactions w1.trace.length queryString = (txs, some stoppedWithErr))
    (hasc : ascending txs) (hpos : ∀ t ∈ txs, 0 < t.Height)
    (hloop : processMessageTX.loop env m.QueryId txs 0
      (w1.emit (.SearchTransactions queryString)) = (.ok lph, w2)) :
    (processMessageTX env m w).1 = some (.wrapped "failed to query txs: " stoppedWithErr) ∧
      (Spec.someCompleted (txs.map (·.Height)) →
        ∃ W, (processMessageTX env m w).2.heights m.QueryId = some W ∧
          Spec.lastCompleted (txs.map (·.Height)) W) ∧
      (¬Spec.someCompleted (txs.map (·.Height)) →
        (processMessageTX env m w).2.heights m.QueryId = w1.heights m.QueryId) := by
  have hp : processMessageTX env m w
      = (some (.wrapped "failed to query txs: " stoppedWithErr), w2) := by
    unfold processMessageTX
    rw [hq]
    exact search_stream_error env m.QueryId queryString w1 txs stoppedWithErr lph w2 hs hloop
  have hh := loop_heights env m.QueryId txs 0 _ lph w2 hloop
  have hw2 : w2.heights m.QueryId
      = (processMessageTX.heights (txs.map (·.Height)) 0 (w1.heights m.QueryId)).2 := by
    have := congrArg Prod.snd hh
    simpa [World.emit] using this
  have hsorted : (txs.map (·.Height)).Pairwise (· ≤ ·) := by
    rw [List.pairwise_map]
    exact hasc
  have hpos2 : ∀ x ∈ txs.map (·.Height), 0 < x := by
    intro x hx
    obtain ⟨t, ht, rfl⟩ := List.mem_map.mp hx
    exact hpos t ht
  obtain ⟨c1, c2⟩ := heights_from_zero (txs.map (·.Height)) (w1.heights m.QueryId) hpos2 hsorted
  rw [hp]
  dsimp only
  rw [hw2]
  exact ⟨rfl, c1, c2⟩

theorem demo_positive : ∀ t ∈ [Demo.tx100, Demo.tx101], 0 < t.Height := by
  intro t ht
  rcases List.mem_cons.mp ht with h | h
  · subst h
    decide
  · rw [List.mem_singleton] at h
    subst h
    decide

theorem demo_ascending : ascending [Demo.tx100, Demo.tx101] := by
  unfold ascending
  decide

/-- Witness of C7: matches at heights 100 and 101, then the stream closes with an
error; the pass fails and the watermark is 100. -/
theorem processMessageTX_stream_error_witness :
    (processMessageTX Demo.broken Demo.msg Demo.fresh).1
        = some (.wrapped "failed to query txs: " (.plain "rpc timeout")) ∧
      (processMessageTX Demo.broken Demo.msg Demo.fresh).2.heights 1 = some 100 :=
  ⟨(processMessageTX_stream_error Demo.broken Demo.msg Demo.fresh
      "transfer.recipient='alice' AND tx.height>0" (Demo.fresh.emit (.GetLastQueryHeight 1))
      [Demo.tx100, Demo.tx101] (.plain "rpc timeout") _ _ rfl rfl
      (by unfold ascending; decide) demo_positive rfl).1, rfl⟩

end relay

namespace relay

/-! ### A pass in which nothing fails -/

theorem prepareHeaders_ok (env : Env) (hok : env.noFailure) (tx : Transaction) (w : World) :
    ∃ hs, (txprocessor.prepareHeaders env tx w).1 = .ok hs := by
  obtain ⟨_, hhdr, hpack, _⟩ := hok
  unfold txprocessor.prepareHeaders
  obtain ⟨header, h1⟩ := hhdr w.trace.length tx.Height
  obtain ⟨packed, h2⟩ := hpack header
  obtain ⟨next, h3⟩ := hhdr (w.emit (.GetHeaderWithBestTrustedHeight tx.Height)).trace.length
    ((tx.Height + 1) % uint64Size)
  obtain ⟨packedNext, h4⟩ := hpack next
  simp only [h1, h2, h3, h4]
  exact ⟨_, rfl⟩

theorem txToBlock_ok (env : Env) (hok : env.noFailure) (tx : Transaction) (w : World) :
    ∃ block, (txprocessor.txToBlock env tx w).1 = .ok block := by
  obtain ⟨hs, h⟩ := prepareHeaders_ok env hok tx w
  unfold txprocessor.txToBlock
  rcases hp : txprocessor.prepareHeaders env tx w with ⟨r, w1⟩
  rw [hp] at h
  dsimp only at h
  subst h
  exact ⟨_, rfl⟩

theorem submitTxWithProofs_ok (env : Env) (hok : env.noFailure) (queryID : Nat)
    (block : Block) (w : World) :
    (txprocessor.submitTxWithProofs env queryID block w).1 = none := by
  obtain ⟨hstore, _, _, hsub⟩ := hok
  unfold txprocessor.submitTxWithProofs
  rcases hs : env.SubmitTxProof w.trace.length queryID block with ⟨neutronTxHash, r⟩
  have := hsub w.trace.length queryID block
  rw [hs] at this
  dsimp only at this
  subst this
  simp only [Storage.SetTxStatus, hstore]

theorem ProcessAndSubmit_ok (env : Env) (hok : env.noFailure) (queryID : Nat)
    (tx : Transaction) (w : World) :
    (txprocessor.ProcessAndSubmit env queryID tx w).1 = none := by
  unfold txprocessor.ProcessAndSubmit
  dsimp only
  simp only [Storage.TxExists, hok.1]
  cases (w.statuses queryID (env.Hash tx.Tx.Data)).isSome with
  | true => simp
  | false =>
    rw [if_neg (by simp)]
    obtain ⟨block, hb⟩ := txToBlock_ok env hok tx (w.emit (.TxExists queryID (env.Hash tx.Tx.Data)))
    rcases hblock : txprocessor.txToBlock env tx
      (w.emit (.TxExists queryID (env.Hash tx.Tx.Data))) with ⟨rb, w2⟩
    rw [hblock] at hb
    dsimp only at hb
    subst hb
    dsimp only
    have hsub := submitTxWithProofs_ok env hok queryID block w2
    rcases hs : txprocessor.submitTxWithProofs env queryID block w2 with ⟨rs, w3⟩
    rw [hs] at hsub
    dsimp only at hsub
    subst hsub
    rfl

theorem body_ok (env : Env) (hok : env.noFailure) (queryID : Nat) (tx : Transaction)
    (lph : Nat) (w : World) (e : GoError) (w1 : World) :
    processMessageTX.body env queryID tx lph w ≠ (.error e, w1) := by
  have hd : ∀ w0, (processMessageTX.dedup env queryID tx w0).1 = .ok tx.Height := by
    intro w0
    unfold processMessageTX.dedup
    dsimp only
    simp only [Storage.TxExists, hok.1]
    cases (w0.statuses queryID (env.Hash tx.Tx.Data)).isSome with
    | true => simp
    | false =>
      rw [if_neg (by simp)]
      have hps := ProcessAndSubmit_ok env hok queryID tx
        (w0.emit (.TxExists queryID (env.Hash tx.Tx.Data)))
      rcases hs : txprocessor.ProcessAndSubmit env queryID tx
        (w0.emit (.TxExists queryID (env.Hash tx.Tx.Data))) with ⟨rs, w3⟩
      rw [hs] at hps
      dsimp only at hps
      subst hps
      rfl
  intro hb
  unfold processMessageTX.body at hb
  by_cases hc : tx.Height > lph ∧ lph > 0
  · rw [if_pos hc, SetLastQueryHeight_ok env queryID lph w (hok.1 _ _)] at hb
    dsimp only at hb
    have := hd (w.saved queryID lph)
    rw [hb] at this
    simp at this
  · rw [if_neg hc] at hb
    dsimp only at hb
    have := hd w
    rw [hb] at this
    simp at this

theorem loop_ok (env : Env) (hok : env.noFailure) (queryID : Nat) (txs : List Transaction)
    (lph : Nat) (w : World) :
    ∃ h w1, processMessageTX.loop env queryID txs lph w = (.ok h, w1) := by
  have key := loop_induct env queryID (fun _ _ _ => True) (fun _ => False)
    (fun tx _ l w0 e w1 _ hb => body_ok env hok queryID tx l w0 e w1 hb)
    (fun _ _ _ _ _ _ _ _ => trivial) txs lph w trivial
  rcases hl : processMessageTX.loop env queryID txs lph w with ⟨r, w1⟩
  cases r with
  | error e => exact absurd (key.1 e w1 hl) id
  | ok h => exact ⟨h, w1, rfl⟩

/-- C4: in a pass of `processMessageTX` whose stream closes cleanly and in which no
storage call or submission fails, the pass returns nil; when the stream delivered
transactions (heights positive) the stored watermark at the end is the height of
the last one, and when it delivered none the stored watermark is the one stored
when the search started. -/
theorem processMessageTX_clean_pass (env : Env) (m : MessageTX) (w : World)
    (queryString : String) (w1 : World) (txs : List Transaction)
    (hq : buildTxQuery env m w = (.ok queryString, w1))
    (hs : env.SearchTransactions w1.trace.length queryString = (txs, none))
    (hok : env.noFailure) (hpos : ∀ t ∈ txs, 0 < t.Height) :
    (processMessageTX env m w).1 = none ∧
      (∀ tn, txs.getLast? = some tn →
        (processMessageTX env m w).2.heights m.QueryId = some tn.Height) ∧
      (txs = [] → (processMessageTX env m w).2.heights m.QueryId = w1.heights m.QueryId) := by
  obtain ⟨lph, w2, hloop⟩ := loop_ok env hok m.QueryId txs 0
    (w1.emit (.SearchTransactions queryString))
  have hh := loop_heights env m.QueryId txs 0 _ lph w2 hloop
  have hlph : lph = (txs.map (·.Height)).getLastD 0 := by
    have := congrArg Prod.fst hh
    rw [heights_fst] at this
    exact this
  have hp : processMessageTX env m w
      = (if lph > 0 then (none, w2.saved m.QueryId lph) else (none, w2)) := by
    unfold processMessageTX
    rw [hq]
    unfold processMessageTX.search
    simp only [hs, hloop]
    by_cases hl : lph > 0
    · rw [if_pos hl, if_pos hl, SetLastQueryHeight_ok env m.QueryId lph w2 (hok.1 _ _)]
    · rw [if_neg hl, if_neg hl]
  rw [hp]
  refine ⟨?_, ?_, ?_⟩
  · split <;> rfl
  · intro tn htn
    obtain ⟨ys, hys⟩ := List.getLast?_eq_some_iff.mp htn
    have hl : lph = tn.Height := by
      rw [hlph, hys, List.map_append, List.map_cons, List.map_nil, List.getLastD_concat]
    have hposn : 0 < tn.Height := hpos tn (List.mem_of_getLast?_eq_some htn)
    rw [if_pos (by omega), hl]
    simp [World.saved]
  · intro hnil
    subst hnil
    have hl : lph = 0 := by
      rw [hlph]
      rfl
    rw [if_neg (by omega)]
    have hloop0 : processMessageTX.loop env m.QueryId [] 0
        (w1.emit (.SearchTransactions queryString))
        = (.ok 0, w1.emit (.SearchTransactions queryString)) := rfl
    rw [hloop0] at hloop
    simp only [Prod.mk.injEq] at hloop
    rw [← hloop.2]
    rfl

theorem demo_noFailure : Demo.env.noFailure :=
  ⟨fun _ _ => rfl, fun _ _ => ⟨_, rfl⟩, fun _ => ⟨_, rfl⟩, fun _ _ _ => rfl⟩

/-- Witness of C4: two matches at heights 100 and 101 leave the watermark at 101. -/
theorem processMessageTX_clean_pass_witness :
    (processMessageTX Demo.env Demo.msg Demo.fresh).1 = none ∧
      (processMessageTX Demo.env Demo.msg Demo.fresh).2.heights 1 = some 101 := by
  have h := processMessageTX_clean_pass Demo.env Demo.msg Demo.fresh
    "transfer.recipient='alice' AND tx.height>0" (Demo.fresh.emit (.GetLastQueryHeight 1))
    [Demo.tx100, Demo.tx101] rfl rfl demo_noFailure demo_positive
  exact ⟨h.1, h.2.1 Demo.tx101 rfl⟩

end relay

namespace relay

/-! ### Watermark writes are monotone -/

theorem monotoneSince_refl (w : World) : w.monotoneSince w :=
  ⟨[], by simp, by simp⟩

theorem monotoneSince_trans {w w1 w2 : World} (h1 : w.monotoneSince w1)
    (h2 : w1.monotoneSince w2) : w.monotoneSince w2 := by
  obtain ⟨e1, c1, d1⟩ := h1
  obtain ⟨e2, c2, d2⟩ := h2
  refine ⟨e1 ++ e2, by rw [c2, c1, List.append_assoc], ?_⟩
  intro e he
  rcases List.mem_append.mp he with he | he
  · exact d1 e he
  · exact d2 e he

theorem monotoneWrite_of_not_write (e : Event) (h : e.isHeightWrite = false) :
    e.monotoneWrite := by
  cases e <;> trivial

theorem monotoneSince_of_step {w w1 : World} (h : w.StatusStep w1) : w.monotoneSince w1 := by
  obtain ⟨_, _, evs, c, d⟩ := h
  exact ⟨evs, c, fun e he => monotoneWrite_of_not_write e (d e he)⟩

theorem monotoneSince_emit (w : World) (e : Event) (h : e.monotoneWrite) :
    w.monotoneSince (w.emit e) := by
  refine ⟨[e], rfl, ?_⟩
  intro e1 he
  rw [List.mem_singleton] at he
  rw [he]
  exact h

theorem monotoneSince_saved (w : World) (queryID height : Nat)
    (h : ∀ W, w.heights queryID = some W → W ≤ height) :
    w.monotoneSince (w.saved queryID height) := by
  refine ⟨[.SetLastQueryHeight queryID height (w.heights queryID)], rfl, ?_⟩
  intro e he
  rw [List.mem_singleton] at he
  rw [he]
  cases hW : w.heights queryID with
  | none => trivial
  | some W => exact h W hW

theorem write_monotone (w : World) (queryID height : Nat)
    (h : ∀ W, w.heights queryID = some W → W ≤ height) :
    (Event.SetLastQueryHeight queryID height (w.heights queryID)).monotoneWrite := by
  cases hW : w.heights queryID with
  | none => trivial
  | some W => exact h W hW

theorem body_monotone (env : Env) (queryID : Nat) (tx : Transaction) (rest : List Transaction)
    (lph : Nat) (w : World) (r : Except GoError Nat) (w1 : World)
    (hb : processMessageTX.body env queryID tx lph w = (r, w1))
    (hsorted : ascending (tx :: rest))
    (hinv : ∀ W, w.heights queryID = some W →
      (∀ t ∈ tx :: rest, W ≤ t.Height) ∧ (lph = 0 ∨ W ≤ lph)) :
    w.monotoneSince w1 ∧
      ∀ h, r = .ok h → ∀ W, w1.heights queryID = some W →
        (∀ t ∈ rest, W ≤ t.Height) ∧ (h = 0 ∨ W ≤ h) := by
  have hmin : ∀ t ∈ rest, tx.Height ≤ t.Height := (List.pairwise_cons.mp hsorted).1
  rcases body_spec env queryID tx lph w r w1 hb with
    ⟨err, hcond, _, hr, hw⟩ | ⟨w0, hw0, hstep, hres⟩
  · constructor
    · rw [hw]
      refine monotoneSince_emit w _ (write_monotone w queryID lph ?_)
      intro W hW
      rcases (hinv W hW).2 with h0 | h0 <;> omega
    · intro h hh
      rw [hr] at hh
      simp at hh
  · rcases hw0 with ⟨hcond, _, hw0⟩ | ⟨hcond, hw0⟩
    · subst hw0
      constructor
      · refine monotoneSince_trans (monotoneSince_saved w queryID lph ?_)
          (monotoneSince_of_step hstep)
        intro W hW
        rcases (hinv W hW).2 with h0 | h0 <;> omega
      · intro h hh W hW
        have hhe : h = tx.Height := by
          rcases hres with ⟨hr, _⟩ | ⟨e, he⟩
          · rw [hr] at hh
            exact (Except.ok.inj hh).symm
          · rw [he] at hh
            simp at hh
        rw [hstep.1] at hW
        simp only [World.saved, if_true, Option.some.injEq] at hW
        subst hW hhe
        refine ⟨fun t ht => ?_, Or.inr (by omega)⟩
        have := hmin t ht
        omega
    · subst hw0
      constructor
      · exact monotoneSince_of_step hstep
      · intro h hh W hW
        have hhe : h = tx.Height := by
          rcases hres with ⟨hr, _⟩ | ⟨e, he⟩
          · rw [hr] at hh
            exact (Except.ok.inj hh).symm
          · rw [he] at hh
            simp at hh
        rw [hstep.1] at hW
        obtain ⟨hall, _⟩ := hinv W hW
        subst hhe
        exact ⟨fun t ht => hall t (List.mem_cons_of_mem _ ht),
          Or.inr (hall tx (List.mem_cons_self _ _))⟩

theorem loop_monotone (env : Env) (queryID : Nat) (txs : List Transaction) (w : World)
    (hasc : ascending txs)
    (habove : ∀ W, w.heights queryID = some W → ∀ t ∈ txs, W < t.Height) :
    (∀ e w1, processMessageTX.loop env queryID txs 0 w = (.error e, w1) →
        w.monotoneSince w1) ∧
      (∀ h w1, processMessageTX.loop env queryID txs 0 w = (.ok h, w1) →
        w.monotoneSince w1 ∧ ∀ W, w1.heights queryID = some W → h = 0 ∨ W ≤ h) := by
  have key := loop_induct env queryID
    (fun rest l w0 => ascending rest ∧
      (∀ W, w0.heights queryID = some W → (∀ t ∈ rest, W ≤ t.Height) ∧ (l = 0 ∨ W ≤ l)) ∧
      w.monotoneSince w0)
    (fun w0 => w.monotoneSince w0) ?_ ?_ txs 0 w
    ⟨hasc, fun W hW => ⟨fun t ht => Nat.le_of_lt (habove W hW t ht), Or.inl rfl⟩,
      monotoneSince_refl w⟩
  · refine ⟨key.1, ?_⟩
    intro h w1 hl
    obtain ⟨_, hinv, hm⟩ := key.2 h w1 hl
    exact ⟨hm, fun W hW => (hinv W hW).2⟩
  · intro tx rest l w0 e w1 hP hb
    obtain ⟨hs, hinv, hm⟩ := hP
    exact monotoneSince_trans hm (body_monotone env queryID tx rest l w0 _ w1 hb hs hinv).1
  · intro tx rest l w0 h w1 hP hb
    obtain ⟨hs, hinv, hm⟩ := hP
    obtain ⟨b1, b2⟩ := body_monotone env queryID tx rest l w0 _ w1 hb hs hinv
    exact ⟨(List.pairwise_cons.mp hs).2, b2 h rfl, monotoneSince_trans hm b1⟩

theorem search_monotone (env : Env) (queryID : Nat) (queryString : String) (w : World)
    (hasc : ascending (env.SearchTransactions w.trace.length queryString).1)
    (habove : ∀ W, w.heights queryID = some W →
      ∀ t ∈ (env.SearchTransactions w.trace.length queryString).1, W < t.Height) :
    w.monotoneSince (processMessageTX.search env queryID queryString w).2 := by
  have h0 : w.monotoneSince (w.emit (.SearchTransactions queryString)) :=
    monotoneSince_emit w _ trivial
  have key := loop_monotone env queryID (env.SearchTransactions w.trace.length queryString).1
    (w.emit (.SearchTransactions queryString)) hasc habove
  unfold processMessageTX.search
  dsimp only
  rcases hl : processMessageTX.loop env queryID
    (env.SearchTransactions w.trace.length queryString).1 0
    (w.emit (.SearchTransactions queryString)) with ⟨r, w2⟩
  cases r with
  | error e => exact monotoneSince_trans h0 (key.1 e w2 hl)
  | ok lph =>
    obtain ⟨hm, hinv⟩ := key.2 lph w2 hl
    dsimp only
    cases (env.SearchTransactions w.trace.length queryString).2 with
    | some stoppedWithErr => exact monotoneSince_trans h0 hm
    | none =>
      dsimp only
      by_cases hpos : lph > 0
      · rw [if_pos hpos]
        have hle : ∀ W, w2.heights queryID = some W → W ≤ lph := by
          intro W hW
          rcases hinv W hW with h | h <;> omega
        cases hs : env.storageErr (.SetLastQueryHeight queryID lph) w2.trace.length with
        | some err =>
          rw [SetLastQueryHeight_err env queryID lph w2 err hs]
          exact monotoneSince_trans h0 (monotoneSince_trans hm
            (monotoneSince_emit w2 _ (write_monotone w2 queryID lph hle)))
        | none =>
          rw [SetLastQueryHeight_ok env queryID lph w2 hs]
          exact monotoneSince_trans h0 (monotoneSince_trans hm
            (monotoneSince_saved w2 queryID lph hle))
      · rw [if_neg hpos]
        exact monotoneSince_trans h0 hm

theorem getLastQueryHeight_monotone (env : Env) (queryID : Nat) (w : World) :
    w.monotoneSince (getLastQueryHeight env queryID w).2 := by
  have h1 : w.monotoneSince (w.emit (.GetLastQueryHeight queryID)) :=
    monotoneSince_emit w _ trivial
  unfold getLastQueryHeight Storage.GetLastQueryHeight
  dsimp only
  cases env.storageErr (.GetLastQueryHeight queryID) w.trace.length with
  | some err => exact h1
  | none =>
    dsimp only
    cases hW : w.heights queryID with
    | some W =>
      dsimp only
      rw [if_pos rfl]
      exact h1
    | none =>
      dsimp only
      rw [if_neg (by simp)]
      have hnone : ∀ (w0 : World) (height : Nat), w0.heights queryID = none →
          w0.monotoneSince (Storage.SetLastQueryHeight env queryID height w0).2 := by
        intro w0 height h0
        cases hs : env.storageErr (.SetLastQueryHeight queryID height) w0.trace.length with
        | some err =>
          rw [SetLastQueryHeight_err env queryID height w0 err hs]
          exact monotoneSince_emit w0 _ (write_monotone w0 queryID height (by simp [h0]))
        | none =>
          rw [SetLastQueryHeight_ok env queryID height w0 hs]
          exact monotoneSince_saved w0 queryID height (by simp [h0])
      by_cases hoff : env.InitialTxSearchOffset ≠ 0
      · rw [if_pos hoff]
        have h2 : w.monotoneSince
            ((w.emit (.GetLastQueryHeight queryID)).emit .QueryLatestHeight) :=
          monotoneSince_trans h1 (monotoneSince_emit _ _ trivial)
        cases env.QueryLatestHeight (w.emit (.GetLastQueryHeight queryID)).trace.length with
        | error err => exact h2
        | ok latestHeight =>
          dsimp only
          have h3 := hnone ((w.emit (.GetLastQueryHeight queryID)).emit .QueryLatestHeight)
            (if (latestHeight % (uint64Size : Int)).toNat > env.InitialTxSearchOffset
              then (latestHeight % (uint64Size : Int)).toNat - env.InitialTxSearchOffset else 0)
            hW
          rcases hset : Storage.SetLastQueryHeight env queryID
            (if (latestHeight % (uint64Size : Int)).toNat > env.InitialTxSearchOffset
              then (latestHeight % (uint64Size : Int)).toNat - env.InitialTxSearchOffset else 0)
            ((w.emit (.GetLastQueryHeight queryID)).emit .QueryLatestHeight) with ⟨r, w3⟩
          rw [hset] at h3
          cases r <;> exact monotoneSince_trans h2 h3
      · rw [if_neg hoff]
        have h3 := hnone (w.emit (.GetLastQueryHeight queryID)) 0 hW
        rcases hset : Storage.SetLastQueryHeight env queryID 0
          (w.emit (.GetLastQueryHeight queryID)) with ⟨r, w3⟩
        rw [hset] at h3
        cases r <;> exact monotoneSince_trans h1 h3

theorem buildTxQuery_world (env : Env) (m : MessageTX) (w : World) :
    (buildTxQuery env m w).2 = (getLastQueryHeight env m.QueryId w).2 := by
  unfold buildTxQuery
  rcases getLastQueryHeight env m.QueryId w with ⟨r, w1⟩
  cases r with
  | error err => rfl
  | ok height =>
    dsimp only
    cases env.Unmarshal m.TransactionsFilter with
    | error err => rfl
    | ok params =>
      dsimp only
      cases queryFromTxFilter env.float64Overflow
        (params ++ [{ Field := TxHeight, Op := "gt", Value := .uint64 height }]) <;> rfl

/-- C6: in a pass of `processMessageTX` over a search stream ordered by ascending
height whose heights are all above the watermark stored when the search starts,
every `SetLastQueryHeight` the pass makes writes a value greater than or equal to
the value stored immediately before the write. -/
theorem processMessageTX_writes_monotone (env : Env) (m : MessageTX) (w : World)
    (hasc : ∀ queryString w1, buildTxQuery env m w = (.ok queryString, w1) →
      ascending (env.SearchTransactions w1.trace.length queryString).1)
    (habove : ∀ queryString w1, buildTxQuery env m w = (.ok queryString, w1) →
      ∀ W, w1.heights m.QueryId = some W →
        ∀ t ∈ (env.SearchTransactions w1.trace.length queryString).1, W < t.Height) :
    ∃ evs, (processMessageTX env m w).2.trace = w.trace ++ evs ∧
      ∀ queryID height stored, Event.SetLastQueryHeight queryID height (some stored) ∈ evs →
        stored ≤ height := by
  have hb := getLastQueryHeight_monotone env m.QueryId w
  rw [← buildTxQuery_world] at hb
  have hm : w.monotoneSince (processMessageTX env m w).2 := by
    unfold processMessageTX
    rcases hq : buildTxQuery env m w with ⟨r, w1⟩
    rw [hq] at hb
    cases r with
    | error err => exact hb
    | ok queryString =>
      exact monotoneSince_trans hb (search_monotone env m.QueryId queryString w1
        (hasc queryString w1 hq) (habove queryString w1 hq))
  obtain ⟨evs, htrace, hall⟩ := hm
  exact ⟨evs, htrace, fun queryID height stored hmem => hall _ hmem⟩

/-- Witness of C6: the pass over the matches at heights 100 and 101 from watermark
0 writes 100 over 0 and then 101 over 100. -/
theorem processMessageTX_writes_monotone_witness :
    ∃ evs, (processMessageTX Demo.env Demo.msg Demo.fresh).2.trace = Demo.fresh.trace ++ evs ∧
      ∀ queryID height stored, Event.SetLastQueryHeight queryID height (some stored) ∈ evs →
        stored ≤ height :=
  processMessageTX_writes_monotone Demo.env Demo.msg Demo.fresh
    (fun _ _ _ => demo_ascending)
    (fun _ w1 hq W hW t ht => by
      have hw : w1 = Demo.fresh.emit (.GetLastQueryHeight 1) := (congrArg Prod.snd hq).symm
      subst hw
      have hW0 : 0 = W := Option.some.inj hW
      subst hW0
      exact demo_positive t ht)

end relay

namespace relay

/-! ### The initial watermark -/

theorem initial_height (offset : Nat) (latest : Int) (hoff : offset ≠ 0)
    (hlo : 0 ≤ latest) (hhi : latest < 2 ^ 63) :
    (((if (latest % (uint64Size : Int)).toNat > offset
        then (latest % (uint64Size : Int)).toNat - offset else 0 : Nat) : Int))
      = Spec.initialWatermark offset latest := by
  have hmod : latest % (uint64Size : Int) = latest := by
    apply Int.emod_eq_of_lt hlo
    have : (uint64Size : Int) = 2 ^ 64 := by norm_num [uint64Size]
    rw [this]
    omega
  rw [hmod]
  unfold Spec.initialWatermark
  rw [if_neg hoff]
  by_cases h : latest.toNat > offset
  · rw [if_pos h, if_neg (by omega)]
    omega
  · rw [if_neg h, if_pos (by omega)]
    rfl

/-- C8: for a query that is not in storage, `getLastQueryHeight` persists and
returns the initial watermark: 0 when `InitialTxSearchOffset` is 0, 0 when the
offset is greater than or equal to the latest height of the target chain, and the
latest height minus the offset otherwise. -/
theorem getLastQueryHeight_initial (env : Env) (queryID : Nat) (w : World) (latest : Int)
    (hnew : w.heights queryID = none)
    (hread : env.storageErr (.GetLastQueryHeight queryID) w.trace.length = none)
    (hlatest : env.InitialTxSearchOffset ≠ 0 →
      env.QueryLatestHeight (w.trace.length + 1) = .ok latest)
    (hlo : 0 ≤ latest) (hhi : latest < 2 ^ 63)
    (hwrite : ∀ height n, env.storageErr (.SetLastQueryHeight queryID height) n = none) :
    ∃ W : Nat, (getLastQueryHeight env queryID w).1 = .ok W ∧
      (getLastQueryHeight env queryID w).2.heights queryID = some W ∧
      (W : Int) = Spec.initialWatermark env.InitialTxSearchOffset latest := by
  unfold getLastQueryHeight Storage.GetLastQueryHeight
  simp only [hread, hnew]
  rw [if_neg (by simp)]
  by_cases hoff : env.InitialTxSearchOffset ≠ 0
  · rw [if_pos hoff]
    have hl := hlatest hoff
    simp only [World.emit, List.length_append, List.length_singleton, hl]
    rw [SetLastQueryHeight_ok _ _ _ _ (hwrite _ _)]
    exact ⟨_, rfl, by simp [World.saved], initial_height _ _ hoff hlo hhi⟩
  · rw [if_neg hoff]
    rw [SetLastQueryHeight_ok _ _ _ _ (hwrite _ _)]
    refine ⟨0, rfl, by simp [World.saved], ?_⟩
    have h0 : env.InitialTxSearchOffset = 0 := by simpa using hoff
    simp [Spec.initialWatermark, h0]

/-- Witness of C8: latest height 1000 and offset 100 give the initial watermark
900, and the first query string ends with `tx.height>900`. -/
theorem getLastQueryHeight_initial_witness :
    (∃ W : Nat, (getLastQueryHeight Demo.offset100 1 Demo.empty).1 = .ok W ∧
      (getLastQueryHeight Demo.offset100 1 Demo.empty).2.heights 1 = some W ∧
      (W : Int) = Spec.initialWatermark 100 1000) ∧
      (getLastQueryHeight Demo.offset100 1 Demo.empty).1 = .ok 900 ∧
      (buildTxQuery Demo.offset100 Demo.msg Demo.empty).1
        = .ok "transfer.recipient='alice' AND tx.height>900" :=
  ⟨getLastQueryHeight_initial Demo.offset100 1 Demo.empty 1000 rfl rfl (fun _ => rfl)
    (by decide) (by decide) (fun _ _ => rfl), rfl, rfl⟩

end relay

namespace relay

/-! ### The dispatcher and critical proof errors -/

theorem asCritical_iff (e : GoError) :
    e.asCritical = true ↔
      (∃ details, e = .critical details) ∨ ∃ details, Spec.Wraps e (.critical details) := by
  induction e with
  | plain msg =>
    constructor
    · intro h
      simp [GoError.asCritical] at h
    · rintro (⟨d, hd⟩ | ⟨d, hd⟩)
      · cases hd
      · cases hd
  | critical details =>
    simp only [GoError.asCritical, true_iff]
    exact Or.inl ⟨details, rfl⟩
  | wrapped pfx inner ih =>
    rw [GoError.asCritical, ih]
    constructor
    · rintro (⟨d, hd⟩ | ⟨d, hd⟩)
      · exact Or.inr ⟨d, hd ▸ Spec.Wraps.direct pfx inner⟩
      · exact Or.inr ⟨d, Spec.Wraps.step pfx inner _ hd⟩
    · rintro (⟨d, hd⟩ | ⟨d, hd⟩)
      · cases hd
      · cases hd with
        | direct => exact Or.inl ⟨d, rfl⟩
        | step _ _ _ h => exact Or.inr ⟨d, h⟩

theorem errorsAs_unwrap_iff (err : Option GoError) :
    errorsAsCritical (errorsUnwrap err) = true ↔ Spec.wrapsCritical err := by
  cases err with
  | none =>
    simp only [errorsUnwrap, errorsAsCritical, Bool.false_eq_true, false_iff]
    rintro ⟨e, d, h, _⟩
    cases h
  | some e =>
    cases e with
    | plain msg =>
      simp only [errorsUnwrap, errorsAsCritical, Bool.false_eq_true, false_iff]
      rintro ⟨e, d, h, hw⟩
      cases h
      cases hw
    | critical details =>
      simp only [errorsUnwrap, errorsAsCritical, Bool.false_eq_true, false_iff]
      rintro ⟨e, d, h, hw⟩
      cases h
      cases hw
    | wrapped pfx inner =>
      simp only [errorsUnwrap, errorsAsCritical]
      rw [asCritical_iff]
      constructor
      · rintro (⟨d, hd⟩ | ⟨d, hd⟩)
        · exact ⟨_, d, rfl, hd ▸ Spec.Wraps.direct pfx inner⟩
        · exact ⟨_, d, rfl, Spec.Wraps.step pfx inner _ hd⟩
      · rintro ⟨e, d, h, hw⟩
        cases h
        cases hw with
        | direct => exact Or.inl ⟨d, rfl⟩
        | step _ _ _ h => exact Or.inr ⟨d, h⟩

/-- C9: for a task taken by `Run`: a TX query whose processing fails with an error
that wraps a critical proof error makes `Run` return that error; a TX query that
ends otherwise, a KV query whatever its outcome, and a query of unknown kind are
recorded and `Run` goes on to the next task.  The error of the submitter, wrapped
by the TX processor and by `processMessageTX`, is such an error. -/
theorem Run_task_outcome (env : Env) (query : RegisteredQuery) (rest : List RunInput)
    (w : World) :
    (query.QueryType = InterchainQueryTypeTX →
        (Spec.wrapsCritical (processMessageTX env ⟨query.Id, query.TransactionsFilter⟩ w).1 →
          Run env (.task query :: rest) w
            = (some (processMessageTX env ⟨query.Id, query.TransactionsFilter⟩ w).1,
                (processMessageTX env ⟨query.Id, query.TransactionsFilter⟩ w).2)) ∧
        (¬Spec.wrapsCritical (processMessageTX env ⟨query.Id, query.TransactionsFilter⟩ w).1 →
          Run env (.task query :: rest) w
            = Run env rest (Run.record query.QueryType
                (processMessageTX env ⟨query.Id, query.TransactionsFilter⟩ w).1
                (processMessageTX env ⟨query.Id, query.TransactionsFilter⟩ w).2))) ∧
      (query.QueryType = InterchainQueryTypeKV →
        Run env (.task query :: rest) w
          = Run env rest (Run.record query.QueryType
              (processMessageKV env ⟨query.Id, query.Keys⟩ w).1
              (processMessageKV env ⟨query.Id, query.Keys⟩ w).2)) ∧
      (query.QueryType ≠ InterchainQueryTypeKV → query.QueryType ≠ InterchainQueryTypeTX →
        Run env (.task query :: rest) w
          = Run env rest (Run.record query.QueryType
              (some (.plain ("unknown query type: " ++ query.QueryType))) w)) ∧
      (∀ details pfx, Spec.wrapsCritical
        (some (.wrapped "failed to process txs: "
          (.wrapped "failed to submit block: " (.wrapped pfx (.critical details)))))) := by
  refine ⟨?_, ?_, ?_, ?_⟩
  · intro htx
    have hkv : query.QueryType ≠ InterchainQueryTypeKV := by
      rw [htx]
      decide
    constructor
    · intro hc
      have hcode := (errorsAs_unwrap_iff _).mpr hc
      rw [Run, Run.task, if_neg hkv, if_pos htx]
      dsimp only
      rw [if_pos hcode]
    · intro hc
      have hcode : ¬errorsAsCritical
          (errorsUnwrap (processMessageTX env ⟨query.Id, query.TransactionsFilter⟩ w).1) = true :=
        fun h => hc ((errorsAs_unwrap_iff _).mp h)
      rw [Run, Run.task, if_neg hkv, if_pos htx]
      dsimp only
      rw [if_neg hcode]
  · intro hkv
    rw [Run, Run.task, if_pos hkv]
  · intro hkv htx
    rw [Run, Run.task, if_neg hkv, if_neg htx]
  · intro details pfx
    exact ⟨_, details, rfl, Spec.Wraps.step _ _ _ (Spec.Wraps.step _ _ _ (Spec.Wraps.direct _ _))⟩

/-- Witness of C9: the proof of the second match of query 1 is rejected with a
critical error, and `Run` returns the error of the pass. -/
theorem Run_task_outcome_witness :
    (Run Demo.rejecting [.task Demo.task, .task Demo.task] Demo.fresh).1
      = some (some (.wrapped "failed to process txs: " (.wrapped "failed to submit block: "
          (.wrapped "could not submit proof for tx with query_id=1: "
            (.critical "proof rejected"))))) :=
  congrArg Prod.fst (((Run_task_outcome Demo.rejecting Demo.task [.task Demo.task]
    Demo.fresh).1 rfl).1
    ⟨_, "proof rejected", rfl,
      Spec.Wraps.step _ _ _ (Spec.Wraps.step _ _ _ (Spec.Wraps.direct _ _))⟩)

end relay

namespace txprocessor

open relay

/-! ### Submission and its record -/

/-- C10, as the code has it: when `SubmitTxProof` succeeds with host hash `H` and the
status write succeeds, `Submitted` is stored under the query and source hash with
`H`, then one `PendingSubmittedTxInfo` with that query, hash and `H` is enqueued,
and nil is returned; when `SubmitTxProof` fails with `e` and the status write
succeeds, `ErrorOnSubmit` with the message of `e` is stored, nothing is enqueued
and the returned error wraps `e`; when the status write fails with `s`, after
either outcome, no status is stored, nothing is enqueued and the returned error
wraps `s`. -/
theorem submitTxWithProofs_outcome (env : Env) (queryID : Nat) (block : Block) (w : World) :
    (∀ H, env.SubmitTxProof w.trace.length queryID block = (H, none) →
        env.storageErr (.SetTxStatus queryID (env.Hash block.Tx.Data) H ⟨.Submitted, ""⟩)
          (w.trace.length + 2) = none →
        (submitTxWithProofs env queryID block w).1 = none ∧
          (submitTxWithProofs env queryID block w).2.statuses queryID (env.Hash block.Tx.Data)
            = some (H, ⟨.Submitted, ""⟩) ∧
          (submitTxWithProofs env queryID block w).2.trace = w.trace ++
            [.SubmitTxProof queryID block, .AddSuccessProof InterchainQueryTypeTX,
              .SetTxStatus queryID (env.Hash block.Tx.Data) H ⟨.Submitted, ""⟩,
              .Enqueue ⟨queryID, env.Hash block.Tx.Data, H, env.Now (w.trace.length + 3)⟩]) ∧
      (∀ H e, env.SubmitTxProof w.trace.length queryID block = (H, some e) →
        env.storageErr
          (.SetTxStatus queryID (env.Hash block.Tx.Data) H ⟨.ErrorOnSubmit, e.Error⟩)
          (w.trace.length + 2) = none →
        (∃ err, (submitTxWithProofs env queryID block w).1 = some err ∧ Spec.Wraps err e) ∧
          (submitTxWithProofs env queryID block w).2.statuses queryID (env.Hash block.Tx.Data)
            = some (H, ⟨.ErrorOnSubmit, e.Error⟩) ∧
          (submitTxWithProofs env queryID block w).2.trace = w.trace ++
            [.SubmitTxProof queryID block, .AddFailedProof InterchainQueryTypeTX,
              .SetTxStatus queryID (env.Hash block.Tx.Data) H ⟨.ErrorOnSubmit, e.Error⟩]) ∧
      (∀ H oe s, env.SubmitTxProof w.trace.length queryID block = (H, oe) →
        env.storageErr (.SetTxStatus queryID (env.Hash block.Tx.Data) H
          (match oe with
            | some e => ⟨.ErrorOnSubmit, e.Error⟩
            | none => ⟨.Submitted, ""⟩)) (w.trace.length + 2) = some s →
        (submitTxWithProofs env queryID block w).1 = some (.wrapped "failed to store tx: " s) ∧
          (submitTxWithProofs env queryID block w).2.statuses = w.statuses ∧
          ∀ item, Event.Enqueue item ∉ (submitTxWithProofs env queryID block w).2.trace.drop
            w.trace.length) := by
  refine ⟨?_, ?_, ?_⟩
  · intro H hsub hst
    unfold submitTxWithProofs
    simp only [hsub, Storage.SetTxStatus, World.emit, List.length_append, List.length_singleton,
      hst]
    refine ⟨trivial, by simp, by simp⟩
  · intro H e hsub hst
    unfold submitTxWithProofs
    simp only [hsub, Storage.SetTxStatus, World.emit, List.length_append, List.length_singleton,
      hst]
    refine ⟨⟨_, rfl, Spec.Wraps.direct _ _⟩, by simp, by simp⟩
  · intro H oe s hsub hst
    unfold submitTxWithProofs
    cases oe with
    | some e =>
      dsimp only at hst
      simp only [hsub, Storage.SetTxStatus, World.emit, List.length_append,
        List.length_singleton, hst]
      refine ⟨trivial, trivial, ?_⟩
      intro item
      simp
    | none =>
      dsimp only at hst
      simp only [hsub, Storage.SetTxStatus, World.emit, List.length_append,
        List.length_singleton, hst]
      refine ⟨trivial, trivial, ?_⟩
      intro item
      simp

/-- Witness of C10: the proof of the second match is accepted and recorded. -/
theorem submitTxWithProofs_outcome_witness :
    (submitTxWithProofs Demo.env 1 Demo.block Demo.fresh).1 = none ∧
      (submitTxWithProofs Demo.env 1 Demo.block Demo.fresh).2.statuses 1 "b"
        = some ("b@neutron", ⟨.Submitted, ""⟩) ∧
      (submitTxWithProofs Demo.env 1 Demo.block Demo.fresh).2.trace = [] ++
        [.SubmitTxProof 1 Demo.block, .AddSuccessProof "tx",
          .SetTxStatus 1 "b" "b@neutron" ⟨.Submitted, ""⟩,
          .Enqueue ⟨1, "b", "b@neutron", 3⟩] :=
  (submitTxWithProofs_outcome Demo.env 1 Demo.block Demo.fresh).1 "b@neutron" rfl rfl

/-- Counterexample to C10 as stated: `SubmitTxProof` fails with a critical error and
the status write fails too; no status is stored and the returned error wraps the
storage error, not the error of the submitter. -/
theorem submitTxWithProofs_drops_submit_error :
    (Demo.rejectingNoStore.SubmitTxProof 0 1 Demo.block).2
        = some (.critical "proof rejected") ∧
      (submitTxWithProofs Demo.rejectingNoStore 1 Demo.block Demo.fresh).1
        = some (.wrapped "failed to store tx: " (.plain "disk full")) ∧
      (submitTxWithProofs Demo.rejectingNoStore 1 Demo.block Demo.fresh).2.statuses 1 "b"
        = none ∧
      ¬∃ err, (submitTxWithProofs Demo.rejectingNoStore 1 Demo.block Demo.fresh).1 = some err ∧
        Spec.Wraps err (.critical "proof rejected") := by
  refine ⟨rfl, rfl, rfl, ?_⟩
  rintro ⟨err, herr, hw⟩
  have h : err = .wrapped "failed to store tx: " (.plain "disk full") :=
    (Option.some.inj herr).symm
  subst h
  cases hw with
  | step _ _ _ h => cases h

end txprocessor

namespace relay

/-! ### Values the filter does not admit -/

/-- C11, on the code: for a clause whose value is a boolean, null or an array
`queryFromTxFilter` returns no error and leaves the clause out of the query
string, and for the value 1.5, which holds no natural number, it returns no
error and renders 1. -/
theorem queryFromTxFilter_accepts_other_values :
    queryFromTxFilter Demo.env.float64Overflow [⟨"transfer.recipient", "eq", .bool true⟩]
        = .ok "" ∧
      queryFromTxFilter Demo.env.float64Overflow
          [⟨"transfer.recipient", "eq", .null⟩, ⟨TxHeight, "gt", .uint64 0⟩]
        = .ok "tx.height>0" ∧
      queryFromTxFilter Demo.env.float64Overflow
          [⟨"transfer.recipient", "eq", .array "[1]"⟩, ⟨TxHeight, "gt", .uint64 0⟩]
        = .ok "tx.height>0" ∧
      Demo.oneAndHalf.exactNat = none ∧
      queryFromTxFilter Demo.env.float64Overflow
          [⟨"transfer.amount", "eq", .float64 Demo.oneAndHalf⟩]
        = .ok "transfer.amount=1" :=
  ⟨rfl, rfl, rfl, by decide, rfl⟩

end relay

namespace relay

/-! ### Invalid filters -/

theorem getOpSign_unsupported (op : String) (h : ¬Spec.isOpAnyCase op) :
    getOpSign op = .error (.plain ("unsupported operator " ++ op)) := by
  simp only [Spec.isOpAnyCase, Spec.isOp, not_or] at h
  obtain ⟨h1, h2, h3, h4, h5⟩ := h
  simp only [getOpSign, if_neg h1, if_neg h2, if_neg h3, if_neg h4, if_neg h5]

theorem loop_unsupported (ovf : Float64 → Nat) (params : List TransactionsFilterItem)
    (acc : List String) (h : ∃ c ∈ params, ¬Spec.isOpAnyCase c.Op) :
    ∃ err, queryFromTxFilter.loop ovf params acc = .error err := by
  induction params generalizing acc with
  | nil =>
    obtain ⟨c, hc, _⟩ := h
    simp at hc
  | cons row rest ih =>
    rw [queryFromTxFilter.loop]
    cases hg : getOpSign row.Op with
    | error err => exact ⟨err, rfl⟩
    | ok sign =>
      have hrest : ∃ c ∈ rest, ¬Spec.isOpAnyCase c.Op := by
        obtain ⟨c, hc, hbad⟩ := h
        rcases List.mem_cons.mp hc with hc | hc
        · subst hc
          rw [getOpSign_unsupported c.Op hbad] at hg
          simp at hg
        · exact ⟨c, hc, hbad⟩
      dsimp only
      cases row.Value <;> exact ih _ hrest

theorem buildTxQuery_invalid (env : Env) (m : MessageTX) (w : World)
    (hbad : Spec.invalidFilter env m) :
    ∃ err, (buildTxQuery env m w).1 = .error err := by
  unfold buildTxQuery
  rcases getLastQueryHeight env m.QueryId w with ⟨r, w1⟩
  cases r with
  | error err => exact ⟨_, rfl⟩
  | ok height =>
    dsimp only
    rcases hbad with ⟨err, hdec⟩ | ⟨params, hdec, c, hc, hop⟩
    · rw [hdec]
      exact ⟨_, rfl⟩
    · rw [hdec]
      dsimp only
      obtain ⟨err, hl⟩ := loop_unsupported env.float64Overflow
        (params ++ [{ Field := TxHeight, Op := "gt", Value := .uint64 height }]) []
        ⟨c, List.mem_append_left _ hc, hop⟩
      simp only [queryFromTxFilter, hl]
      exact ⟨_, rfl⟩

theorem getLastQueryHeight_frame (env : Env) (queryID : Nat) (w : World) :
    w.onlyInitialised (getLastQueryHeight env queryID w).2 queryID := by
  have hwrite : ∀ (evs : List Event) (w0 : World) (height : Nat),
      w0.statuses = w.statuses → w0.heights = w.heights → w.heights queryID = none →
      w0.trace = w.trace ++ evs →
      (∀ e ∈ evs, e = .GetLastQueryHeight queryID ∨ e = .QueryLatestHeight ∨
        ∃ height, e = .SetLastQueryHeight queryID height none) →
      w.onlyInitialised (Storage.SetLastQueryHeight env queryID height w0).2 queryID := by
    intro evs w0 height hst hh hnone htr hev
    have hev2 : ∀ e ∈ evs ++ [Event.SetLastQueryHeight queryID height (w0.heights queryID)],
        e = .GetLastQueryHeight queryID ∨ e = .QueryLatestHeight ∨
          ∃ height, e = .SetLastQueryHeight queryID height none := by
      intro e he
      rcases List.mem_append.mp he with he | he
      · exact hev e he
      · rw [List.mem_singleton] at he
        rw [he, hh, hnone]
        exact Or.inr (Or.inr ⟨height, rfl⟩)
    cases hs : env.storageErr (.SetLastQueryHeight queryID height) w0.trace.length with
    | some err =>
      rw [SetLastQueryHeight_err env queryID height w0 err hs]
      refine ⟨hst, fun q _ => by rw [← hh]; rfl, fun W _ => by rw [← hh]; rfl, _, ?_, hev2⟩
      simp [World.emit, htr]
    | none =>
      rw [SetLastQueryHeight_ok env queryID height w0 hs]
      refine ⟨hst, ?_, ?_, _, ?_, hev2⟩
      · intro q hq
        simp [World.saved, hq, hh]
      · intro W hW
        rw [hnone] at hW
        simp at hW
      · simp [World.saved, htr]
  have h1 : ∀ e ∈ [Event.GetLastQueryHeight queryID],
      e = .GetLastQueryHeight queryID ∨ e = .QueryLatestHeight ∨
        ∃ height, e = .SetLastQueryHeight queryID height none := by
    intro e he
    rw [List.mem_singleton] at he
    exact Or.inl he
  have h2 : ∀ e ∈ [Event.GetLastQueryHeight queryID, Event.QueryLatestHeight],
      e = .GetLastQueryHeight queryID ∨ e = .QueryLatestHeight ∨
        ∃ height, e = .SetLastQueryHeight queryID height none := by
    intro e he
    simp only [List.mem_cons, List.mem_singleton, List.not_mem_nil, or_false] at he
    rcases he with he | he
    · exact Or.inl he
    · exact Or.inr (Or.inl he)
  have hread : w.onlyInitialised (w.emit (.GetLastQueryHeight queryID)) queryID :=
    ⟨rfl, fun _ _ => rfl, fun _ _ => rfl, _, rfl, h1⟩
  unfold getLastQueryHeight Storage.GetLastQueryHeight
  dsimp only
  cases env.storageErr (.GetLastQueryHeight queryID) w.trace.length with
  | some err => exact hread
  | none =>
    dsimp only
    cases hW : w.heights queryID with
    | some W =>
      dsimp only
      rw [if_pos rfl]
      refine ⟨rfl, fun _ _ => rfl, fun _ _ => rfl, _, rfl, h1⟩
    | none =>
      dsimp only
      rw [if_neg (by simp)]
      by_cases hoff : env.InitialTxSearchOffset ≠ 0
      · rw [if_pos hoff]
        cases env.QueryLatestHeight (w.emit (.GetLastQueryHeight queryID)).trace.length with
        | error err =>
          refine ⟨rfl, fun _ _ => rfl, fun _ _ => rfl, _, ?_, h2⟩
          simp [World.emit]
        | ok latestHeight =>
          dsimp only
          have h3 := hwrite [.GetLastQueryHeight queryID, .QueryLatestHeight]
            ((w.emit (.GetLastQueryHeight queryID)).emit .QueryLatestHeight)
            (if (latestHeight % (uint64Size : Int)).toNat > env.InitialTxSearchOffset
              then (latestHeight % (uint64Size : Int)).toNat - env.InitialTxSearchOffset else 0)
            rfl rfl hW (by simp [World.emit]) h2
          rcases hset : Storage.SetLastQueryHeight env queryID
            (if (latestHeight % (uint64Size : Int)).toNat > env.InitialTxSearchOffset
              then (latestHeight % (uint64Size : Int)).toNat - env.InitialTxSearchOffset else 0)
            ((w.emit (.GetLastQueryHeight queryID)).emit .QueryLatestHeight) with ⟨r, w3⟩
          rw [hset] at h3
          cases r <;> exact h3
      · rw [if_neg hoff]
        have h3 := hwrite [.GetLastQueryHeight queryID] (w.emit (.GetLastQueryHeight queryID)) 0
          rfl rfl hW rfl h1
        rcases hset : Storage.SetLastQueryHeight env queryID 0
          (w.emit (.GetLastQueryHeight queryID)) with ⟨r, w3⟩
        rw [hset] at h3
        cases r <;> exact h3

/-- C12, as the code has it: for a TX message whose filter does not decode or has
an operator that is none of eq, gt, gte, lt, lte in any letter case,
`processMessageTX` returns an error, starts no search, makes no submission and
writes no status; the watermark of every other query stays, storage is exactly as
before when the query has a watermark, and for a query never seen the only write
is its first watermark. -/
theorem processMessageTX_invalid_filter (env : Env) (m : MessageTX) (w : World)
    (hbad : Spec.invalidFilter env m) :
    (∃ err, (processMessageTX env m w).1 = some err) ∧
      (processMessageTX env m w).2.statuses = w.statuses ∧
      (∀ q, q ≠ m.QueryId → (processMessageTX env m w).2.heights q = w.heights q) ∧
      (∀ W, w.heights m.QueryId = some W → (processMessageTX env m w).2.heights = w.heights) ∧
      ∃ evs, (processMessageTX env m w).2.trace = w.trace ++ evs ∧
        ∀ e ∈ evs, e = .GetLastQueryHeight m.QueryId ∨ e = .QueryLatestHeight ∨
          ∃ height, e = .SetLastQueryHeight m.QueryId height none := by
  obtain ⟨err, herr⟩ := buildTxQuery_invalid env m w hbad
  have hw := buildTxQuery_world env m w
  have hf := getLastQueryHeight_frame env m.QueryId w
  rw [← hw] at hf
  have hp : processMessageTX env m w
      = (some (.wrapped "failed to build tx query string: " err), (buildTxQuery env m w).2) := by
    unfold processMessageTX
    rcases hq : buildTxQuery env m w with ⟨r, w1⟩
    rw [hq] at herr
    dsimp only at herr
    subst herr
    rfl
  rw [hp]
  exact ⟨⟨_, rfl⟩, hf⟩

/-- Witness of C12: the filter of query 1, which has watermark 0, is not valid
JSON; the pass fails and the watermarks are as before. -/
theorem processMessageTX_invalid_filter_witness :
    (∃ err, (processMessageTX Demo.malformed Demo.msg Demo.fresh).1 = some err) ∧
      (processMessageTX Demo.malformed Demo.msg Demo.fresh).2.heights = Demo.fresh.heights := by
  have h := processMessageTX_invalid_filter Demo.malformed Demo.msg Demo.fresh
    (Or.inl ⟨_, rfl⟩)
  exact ⟨h.1, h.2.2.2.1 0 rfl⟩

/-- Counterexample to C12 as stated: for query 1, never seen, a filter that is not
valid JSON leaves the watermark 0 stored where there was none; and a filter whose
operator is spelled `EQ`, which is not one of the five, is accepted: the search
is started and the pass returns nil. -/
theorem processMessageTX_invalid_filter_mutates :
    Spec.invalidFilter Demo.malformed Demo.msg ∧
      Demo.empty.heights 1 = none ∧
      (processMessageTX Demo.malformed Demo.msg Demo.empty).2.heights 1 = some 0 ∧
      ¬Spec.isOp "EQ" ∧
      (processMessageTX Demo.upper Demo.msg Demo.fresh).1 = none ∧
      Event.SearchTransactions "transfer.recipient='alice' AND tx.height>0"
        ∈ (processMessageTX Demo.upper Demo.msg Demo.fresh).2.trace := by
  refine ⟨Or.inl ⟨_, rfl⟩, rfl, rfl, ?_, rfl, ?_⟩
  · unfold Spec.isOp
    decide
  · decide

end relay

namespace txprocessor

open relay

/-! ### The block that is submitted -/

theorem prepareHeaders_frame (env : Env) (tx : Transaction) (w : World) :
    (prepareHeaders env tx w).2.statuses = w.statuses ∧
      (prepareHeaders env tx w).2.heights = w.heights ∧
      ∃ evs, (prepareHeaders env tx w).2.trace = w.trace ++ evs ∧
        ∀ e ∈ evs, ∃ h, e = Event.GetHeaderWithBestTrustedHeight h := by
  have h1 : ∀ e ∈ [Event.GetHeaderWithBestTrustedHeight tx.Height],
      ∃ h, e = Event.GetHeaderWithBestTrustedHeight h := by
    intro e he
    rw [List.mem_singleton] at he
    exact ⟨_, he⟩
  have h2 : ∀ e ∈ [Event.GetHeaderWithBestTrustedHeight tx.Height,
      Event.GetHeaderWithBestTrustedHeight ((tx.Height + 1) % uint64Size)],
      ∃ h, e = Event.GetHeaderWithBestTrustedHeight h := by
    intro e he
    simp only [List.mem_cons, List.mem_singleton, List.not_mem_nil, or_false] at he
    rcases he with he | he <;> exact ⟨_, he⟩
  have t2 : ((w.emit (.GetHeaderWithBestTrustedHeight tx.Height)).emit
      (.GetHeaderWithBestTrustedHeight ((tx.Height + 1) % uint64Size))).trace
      = w.trace ++ [Event.GetHeaderWithBestTrustedHeight tx.Height,
        Event.GetHeaderWithBestTrustedHeight ((tx.Height + 1) % uint64Size)] := by
    simp [World.emit]
  unfold prepareHeaders
  cases env.GetHeaderWithBestTrustedHeight w.trace.length tx.Height with
  | error err => exact ⟨rfl, rfl, _, rfl, h1⟩
  | ok header =>
    dsimp only
    cases env.PackHeader header with
    | error err => exact ⟨rfl, rfl, _, rfl, h1⟩
    | ok packedHeader =>
      dsimp only
      cases env.GetHeaderWithBestTrustedHeight _ ((tx.Height + 1) % uint64Size) with
      | error err => exact ⟨rfl, rfl, _, t2, h2⟩
      | ok nextHeader =>
        dsimp only
        cases env.PackHeader nextHeader with
        | error err => exact ⟨rfl, rfl, _, t2, h2⟩
        | ok packedNextHeader => exact ⟨rfl, rfl, _, t2, h2⟩

theorem prepareHeaders_ok_inv (env : Env) (tx : Transaction) (w : World)
    (hs : PackedAny × PackedAny) (h : (prepareHeaders env tx w).1 = .ok hs) :
    ∃ header next,
      env.GetHeaderWithBestTrustedHeight w.trace.length tx.Height = .ok header ∧
      env.PackHeader header = .ok hs.1 ∧
      env.GetHeaderWithBestTrustedHeight (w.trace.length + 1) ((tx.Height + 1) % uint64Size)
        = .ok next ∧
      env.PackHeader next = .ok hs.2 := by
  unfold prepareHeaders at h
  have hlen : (w.emit (.GetHeaderWithBestTrustedHeight tx.Height)).trace.length
      = w.trace.length + 1 := by
    simp [World.emit]
  dsimp only at h
  rw [hlen] at h
  cases h1 : env.GetHeaderWithBestTrustedHeight w.trace.length tx.Height with
  | error err =>
    rw [h1] at h
    simp at h
  | ok header =>
    rw [h1] at h
    dsimp only at h
    cases h2 : env.PackHeader header with
    | error err =>
      rw [h2] at h
      simp at h
    | ok packedHeader =>
      rw [h2] at h
      dsimp only at h
      cases h3 : env.GetHeaderWithBestTrustedHeight (w.trace.length + 1)
          ((tx.Height + 1) % uint64Size) with
      | error err =>
        rw [h3] at h
        simp at h
      | ok nextHeader =>
        rw [h3] at h
        dsimp only at h
        cases h4 : env.PackHeader nextHeader with
        | error err =>
          rw [h4] at h
          simp at h
        | ok packedNextHeader =>
          rw [h4] at h
          dsimp only at h
          have hp := Except.ok.inj h
          refine ⟨header, nextHeader, rfl, ?_, rfl, ?_⟩
          · rw [h2, ← hp]
          · rw [h4, ← hp]

theorem prepareHeaders_succeed (env : Env) (tx : Transaction) (w : World)
    (header next : Header) (packed packedNext : PackedAny)
    (h1 : env.GetHeaderWithBestTrustedHeight w.trace.length tx.Height = .ok header)
    (h2 : env.PackHeader header = .ok packed)
    (h3 : env.GetHeaderWithBestTrustedHeight (w.trace.length + 1)
      ((tx.Height + 1) % uint64Size) = .ok next)
    (h4 : env.PackHeader next = .ok packedNext) :
    (prepareHeaders env tx w).1 = .ok (packed, packedNext) := by
  unfold prepareHeaders
  have hlen : (w.emit (.GetHeaderWithBestTrustedHeight tx.Height)).trace.length
      = w.trace.length + 1 := by
    simp [World.emit]
  dsimp only
  rw [hlen]
  simp only [h1, h2, h3, h4]

theorem submitTxWithProofs_trace (env : Env) (queryID : Nat) (block : Block) (w : World) :
    ∃ evs, (submitTxWithProofs env queryID block w).2.trace
        = w.trace ++ Event.SubmitTxProof queryID block :: evs ∧
      ∀ e ∈ evs, ∀ q b, e ≠ Event.SubmitTxProof q b := by
  unfold submitTxWithProofs
  rcases env.SubmitTxProof w.trace.length queryID block with ⟨neutronTxHash, r⟩
  cases r with
  | some err =>
    dsimp only
    unfold Storage.SetTxStatus
    dsimp only
    cases env.storageErr _ _ with
    | some e2 =>
      refine ⟨[_, _], by simp only [World.emit, List.append_assoc]; rfl, ?_⟩
      intro e he q b
      simp only [List.mem_cons, List.mem_singleton, List.not_mem_nil, or_false] at he
      rcases he with he | he <;> (rw [he]; simp)
    | none =>
      refine ⟨[_, _], by simp only [World.emit, List.append_assoc]; rfl, ?_⟩
      intro e he q b
      simp only [List.mem_cons, List.mem_singleton, List.not_mem_nil, or_false] at he
      rcases he with he | he <;> (rw [he]; simp)
  | none =>
    dsimp only
    unfold Storage.SetTxStatus
    dsimp only
    cases env.storageErr _ _ with
    | some e2 =>
      refine ⟨[_, _], by simp only [World.emit, List.append_assoc]; rfl, ?_⟩
      intro e he q b
      simp only [List.mem_cons, List.mem_singleton, List.not_mem_nil, or_false] at he
      rcases he with he | he <;> (rw [he]; simp)
    | none =>
      refine ⟨[_, _, _], by simp only [World.emit, List.append_assoc]; rfl, ?_⟩
      intro e he q b
      simp only [List.mem_cons, List.mem_singleton, List.not_mem_nil, or_false] at he
      rcases he with he | he | he <;> (rw [he]; simp)

theorem ProcessAndSubmit_read_fails (env : Env) (queryID : Nat) (tx : Transaction) (w : World)
    (err : GoError)
    (hs : env.storageErr (.TxExists queryID (env.Hash tx.Tx.Data)) w.trace.length = some err) :
    ProcessAndSubmit env queryID tx w
      = (some (.wrapped "failed to check tx existence: " err),
          w.emit (.TxExists queryID (env.Hash tx.Tx.Data))) := by
  simp only [ProcessAndSubmit, Storage.TxExists, hs]

theorem ProcessAndSubmit_seen (env : Env) (queryID : Nat) (tx : Transaction) (w : World)
    (v : String × SubmittedTxInfo)
    (hs : env.storageErr (.TxExists queryID (env.Hash tx.Tx.Data)) w.trace.length = none)
    (hst : w.statuses queryID (env.Hash tx.Tx.Data) = some v) :
    ProcessAndSubmit env queryID tx w
      = (none, w.emit (.TxExists queryID (env.Hash tx.Tx.Data))) := by
  simp [ProcessAndSubmit, Storage.TxExists, hs, hst]

theorem ProcessAndSubmit_no_headers (env : Env) (queryID : Nat) (tx : Transaction) (w : World)
    (e : GoError) (w2 : World) (hm : Spec.txMissing env queryID tx w)
    (hp : prepareHeaders env tx (w.emit (.TxExists queryID (env.Hash tx.Tx.Data)))
      = (.error e, w2)) :
    ProcessAndSubmit env queryID tx w
      = (some (.wrapped "failed to prepsre block: "
          (.wrapped "failed to prepare headers: " e)), w2) := by
  simp [ProcessAndSubmit, Storage.TxExists, hm.1, hm.2, txToBlock, hp]

theorem ProcessAndSubmit_headers (env : Env) (queryID : Nat) (tx : Transaction) (w : World)
    (packed packedNext : PackedAny) (w2 : World) (hm : Spec.txMissing env queryID tx w)
    (hp : prepareHeaders env tx (w.emit (.TxExists queryID (env.Hash tx.Tx.Data)))
      = (.ok (packed, packedNext), w2)) :
    ProcessAndSubmit env queryID tx w
      = (match submitTxWithProofs env queryID
            { Header := packed, NextBlockHeader := packedNext, Tx := tx.Tx } w2 with
          | (some err, w3) => (some (.wrapped "failed to submit block: " err), w3)
          | (none, w3) => (none, w3)) := by
  simp [ProcessAndSubmit, Storage.TxExists, hm.1, hm.2, txToBlock, hp]

/-- C13: every block `ProcessAndSubmit` passes to `SubmitTxProof` for a transaction
at height `h` holds the packed header the consensus manager returned for `h`, the
packed header it returned for `h + 1` as next-block header, and the transaction;
when no status is stored and the four header steps succeed that block is
submitted; and when fetching or packing either header fails, `ProcessAndSubmit`
returns an error after the `TxExists` read and the header fetches alone, with no
`SubmitTxProof`, no status written and nothing enqueued. -/
theorem ProcessAndSubmit_block (env : Env) (queryID : Nat) (tx : Transaction) (w : World)
    (hh : tx.Height + 1 < uint64Size) :
    ∃ evs, (ProcessAndSubmit env queryID tx w).2.trace = w.trace ++ evs ∧
      (∀ q block, Event.SubmitTxProof q block ∈ evs →
        q = queryID ∧ block.Tx = tx.Tx ∧ ∃ header next,
          env.GetHeaderWithBestTrustedHeight (w.trace.length + 1) tx.Height = .ok header ∧
          env.PackHeader header = .ok block.Header ∧
          env.GetHeaderWithBestTrustedHeight (w.trace.length + 2) (tx.Height + 1) = .ok next ∧
          env.PackHeader next = .ok block.NextBlockHeader) ∧
      (Spec.txMissing env queryID tx w → ∀ header next packed packedNext,
        env.GetHeaderWithBestTrustedHeight (w.trace.length + 1) tx.Height = .ok header →
        env.PackHeader header = .ok packed →
        env.GetHeaderWithBestTrustedHeight (w.trace.length + 2) (tx.Height + 1) = .ok next →
        env.PackHeader next = .ok packedNext →
        Event.SubmitTxProof queryID
          { Header := packed, NextBlockHeader := packedNext, Tx := tx.Tx } ∈ evs) ∧
      (Spec.txMissing env queryID tx w →
        Spec.headersFail env (w.trace.length + 1) tx.Height →
        (∃ err, (ProcessAndSubmit env queryID tx w).1 = some err) ∧
          (ProcessAndSubmit env queryID tx w).2.statuses = w.statuses ∧
          ∀ e ∈ evs, e = .TxExists queryID (env.Hash tx.Tx.Data) ∨
            ∃ h, e = .GetHeaderWithBestTrustedHeight h) := by
  have hmod : (tx.Height + 1) % uint64Size = tx.Height + 1 := Nat.mod_eq_of_lt hh
  have hlen : (w.emit (.TxExists queryID (env.Hash tx.Tx.Data))).trace.length
      = w.trace.length + 1 := by
    simp [World.emit]
  have hread : ∀ e ∈ [Event.TxExists queryID (env.Hash tx.Tx.Data)],
      e = .TxExists queryID (env.Hash tx.Tx.Data) ∨
        ∃ h, e = .GetHeaderWithBestTrustedHeight h := by
    intro e he
    rw [List.mem_singleton] at he
    exact Or.inl he
  cases hs : env.storageErr (.TxExists queryID (env.Hash tx.Tx.Data)) w.trace.length with
  | some err =>
    rw [ProcessAndSubmit_read_fails env queryID tx w err hs]
    refine ⟨[.TxExists queryID (env.Hash tx.Tx.Data)], rfl, ?_, ?_, ?_⟩
    · intro q block hmem
      simp at hmem
    · intro hm
      have := hm.1
      rw [hs] at this
      simp at this
    · intro hm
      have := hm.1
      rw [hs] at this
      simp at this
  | none =>
    cases hst : w.statuses queryID (env.Hash tx.Tx.Data) with
    | some v =>
      rw [ProcessAndSubmit_seen env queryID tx w v hs hst]
      refine ⟨[.TxExists queryID (env.Hash tx.Tx.Data)], rfl, ?_, ?_, ?_⟩
      · intro q block hmem
        simp at hmem
      · intro hm
        have := hm.2
        rw [hst] at this
        simp at this
      · intro hm
        have := hm.2
        rw [hst] at this
        simp at this
    | none =>
      have hm : Spec.txMissing env queryID tx w := ⟨hs, hst⟩
      obtain ⟨fst, _, evs2, ftr, fev⟩ :=
        prepareHeaders_frame env tx (w.emit (.TxExists queryID (env.Hash tx.Tx.Data)))
      rcases hp : prepareHeaders env tx (w.emit (.TxExists queryID (env.Hash tx.Tx.Data)))
        with ⟨r, w2⟩
      rw [hp] at fst ftr
      dsimp only at fst ftr
      have hnosub : ∀ q block, Event.SubmitTxProof q block ∉
          Event.TxExists queryID (env.Hash tx.Tx.Data) :: evs2 := by
        intro q block hmem
        rcases List.mem_cons.mp hmem with hmem | hmem
        · simp at hmem
        · obtain ⟨h, hev⟩ := fev _ hmem
          simp at hev
      cases r with
      | error e =>
        rw [ProcessAndSubmit_no_headers env queryID tx w e w2 hm hp]
        refine ⟨.TxExists queryID (env.Hash tx.Tx.Data) :: evs2, ?_, ?_, ?_, ?_⟩
        · rw [ftr]
          simp [World.emit]
        · intro q block hmem
          exact absurd hmem (hnosub q block)
        · intro _ header next packed packedNext h1 h2 h3 h4
          have hok := prepareHeaders_succeed env tx
            (w.emit (.TxExists queryID (env.Hash tx.Tx.Data))) header next packed packedNext
            (by rw [hlen]; exact h1) h2 (by rw [hlen, hmod]; exact h3) h4
          rw [hp] at hok
          simp at hok
        · intro _ _
          refine ⟨⟨_, rfl⟩, fst, ?_⟩
          intro ev hev
          rcases List.mem_cons.mp hev with hev | hev
          · exact Or.inl hev
          · exact Or.inr (fev ev hev)
      | ok hs2 =>
        rcases hs2 with ⟨p1, p2⟩
        obtain ⟨header, next, i1, i2, i3, i4⟩ := prepareHeaders_ok_inv env tx
          (w.emit (.TxExists queryID (env.Hash tx.Tx.Data))) (p1, p2) (by rw [hp])
        rw [hlen] at i1 i3
        rw [hmod] at i3
        dsimp only at i2 i4
        rw [ProcessAndSubmit_headers env queryID tx w p1 p2 w2 hm hp]
        obtain ⟨evs3, str, sev⟩ := submitTxWithProofs_trace env queryID
          { Header := p1, NextBlockHeader := p2, Tx := tx.Tx } w2
        have htrace : (match submitTxWithProofs env queryID
              { Header := p1, NextBlockHeader := p2, Tx := tx.Tx } w2 with
            | (some err, w3) => (some (GoError.wrapped "failed to submit block: " err), w3)
            | (none, w3) => (none, w3)).2.trace
            = w.trace ++ (Event.TxExists queryID (env.Hash tx.Tx.Data) :: evs2 ++
              Event.SubmitTxProof queryID { Header := p1, NextBlockHeader := p2, Tx := tx.Tx }
                :: evs3) := by
          rcases hsub : submitTxWithProofs env queryID
            { Header := p1, NextBlockHeader := p2, Tx := tx.Tx } w2 with ⟨rs, w3⟩
          rw [hsub] at str
          dsimp only at str
          cases rs <;> (dsimp only; rw [str, ftr]; simp [World.emit])
        refine ⟨_, htrace, ?_, ?_, ?_⟩
        · intro q block hmem
          rcases List.mem_append.mp hmem with hmem | hmem
          · exact absurd hmem (hnosub q block)
          · rcases List.mem_cons.mp hmem with hmem | hmem
            · have hq := (Event.SubmitTxProof.inj hmem).1
              have hb := (Event.SubmitTxProof.inj hmem).2
              subst hq hb
              exact ⟨rfl, rfl, header, next, i1, i2, i3, i4⟩
            · exact absurd rfl (sev _ hmem q block)
        · intro _ header1 next1 packed packedNext h1 h2 h3 h4
          have e1 : header1 = header := by
            rw [i1] at h1
            exact (Except.ok.inj h1).symm
          have e3 : next1 = next := by
            rw [i3] at h3
            exact (Except.ok.inj h3).symm
          subst e1 e3
          rw [i2] at h2
          rw [i4] at h4
          have e2 := Except.ok.inj h2
          have e4 := Except.ok.inj h4
          subst e2 e4
          exact List.mem_append_right _ (List.mem_cons_self _ _)
        · intro _ hfail
          exfalso
          rcases hfail with ⟨err, h⟩ | ⟨header1, err, h1, h2⟩ | ⟨err, h⟩ | ⟨next1, err, h1, h2⟩
          · rw [i1] at h
            simp at h
          · rw [i1] at h1
            have := Except.ok.inj h1
            subst this
            rw [i2] at h2
            simp at h2
          · rw [i3] at h
            simp at h
          · rw [i3] at h1
            have := Except.ok.inj h1
            subst this
            rw [i4] at h2
            simp at h2

/-- Witness of C13: the second match, at height 101, is submitted in a block with
the headers of heights 101 and 102. -/
theorem ProcessAndSubmit_block_witness :
    Event.SubmitTxProof 1 Demo.block
      ∈ (ProcessAndSubmit Demo.env 1 Demo.tx101 Demo.fresh).2.trace := by
  obtain ⟨evs, htrace, _, hsub, _⟩ :=
    ProcessAndSubmit_block Demo.env 1 Demo.tx101 Demo.fresh (by decide)
  rw [htrace]
  exact List.mem_append_right _
    (hsub ⟨rfl, rfl⟩ ⟨"101"⟩ ⟨"102"⟩ ⟨"101"⟩ ⟨"102"⟩ rfl rfl rfl rfl)

end txprocessor
